import Mathlib

/-!
# Verification of the js-mini-engine front-end pipeline

This file gives a shallow embedding, in Lean 4, of the four-stage pipeline
of the `js-mini-engine` repository — scanner, recursive-descent parser,
semantic analyzer and tree-walking interpreter — and proves or refutes the
frozen claims about it.

Conventions of the embedding:

* TypeScript classes with a mutable cursor become pure functions threading
  the remaining input / index explicitly.
* Thrown exceptions become `Except`/`Option` error channels.
* Loops and mutual AST recursion are expressed with an explicit fuel
  parameter; running out of fuel is a distinguished outcome that models
  non-termination and is never reached by any of the concrete programs
  evaluated below.
* JavaScript numbers are modelled by `JSNum`: exact rationals plus the
  special values `Infinity`, `-Infinity` and `NaN`.  The engine's number
  handling (literals written as digit runs, `=== 0` tests, comparisons)
  is exact on this fragment; binary floating-point rounding is not
  modelled, and no claim below depends on it.
-/

/-- `TokenType` from `src/core/enums` (the complete enum, in source order). -/
inductive TokenType where
  | NUMBER | STRING | IDENTIFIER | TRUE | FALSE | NULL
  | PLUS | MINUS | STAR | SLASH | PERCENT
  | EQUAL_EQUAL | BANG_EQUAL | LESS | LESS_EQUAL | GREATER | GREATER_EQUAL
  | BANG | AND | OR
  | EQUAL
  | LPAREN | RPAREN | LBRACE | RBRACE | LBRACKET | RBRACKET
  | SEMICOLON | COMMA | DOT | COLON
  | LET | CONST | FUNCTION | RETURN | IF | ELSE | WHILE | FOR | BREAK | CONTINUE
  | PRINT
  | EOF | ILLEGAL
  deriving DecidableEq, Repr

/-- `TokenI` from `src/core/types/token-types.ts`. -/
structure Token where
  type : TokenType
  value : String
  line : Nat
  column : Nat
  deriving DecidableEq, Repr

/-- The keyword table `KEYWORDS` together with `lookupIdentifier` from
`src/core`: keyword lexemes map to their dedicated kinds, everything else
is an `IDENTIFIER`. -/
def lookupIdentifier (s : String) : TokenType :=
  if s = "let" then .LET
  else if s = "const" then .CONST
  else if s = "function" then .FUNCTION
  else if s = "return" then .RETURN
  else if s = "if" then .IF
  else if s = "else" then .ELSE
  else if s = "while" then .WHILE
  else if s = "for" then .FOR
  else if s = "break" then .BREAK
  else if s = "continue" then .CONTINUE
  else if s = "true" then .TRUE
  else if s = "false" then .FALSE
  else if s = "null" then .NULL
  else if s = "print" then .PRINT
  else .IDENTIFIER

/-- `Scanner.isDigit`: `char >= '0' && char <= '9'` (code-unit comparison). -/
def isDigitCh (c : Char) : Bool := 48 ≤ c.toNat && c.toNat ≤ 57

/-- `Scanner.isAlpha`: lowercase or uppercase ASCII letter or underscore. -/
def isAlphaCh (c : Char) : Bool :=
  (97 ≤ c.toNat && c.toNat ≤ 122) || (65 ≤ c.toNat && c.toNat ≤ 90) || c = '_'

/-- `Scanner.isAlphaNumeric`. -/
def isAlphaNumericCh (c : Char) : Bool := isAlphaCh c || isDigitCh c

/-- `Scanner.skipWhiteSpace`, threading the remaining characters and the
line/column counters.  A newline bumps the line, resets the column to `0`
and is then consumed by `moveNextCharacter`, which bumps the column — so
the column right after a newline is `1`, exactly as in the source. -/
def skipWhiteSpace : List Char → Nat → Nat → List Char × Nat × Nat
  | [], line, col => ([], line, col)
  | c :: cs, line, col =>
    if c = ' ' || c = '\t' || c = '\r' then skipWhiteSpace cs line (col + 1)
    else if c = '\n' then skipWhiteSpace cs (line + 1) 1
    else (c :: cs, line, col)

/-- The digit-run loop shared by both halves of `Scanner.scanNumber`. -/
def takeDigits : List Char → List Char × List Char
  | [] => ([], [])
  | c :: cs =>
    if isDigitCh c then
      let p := takeDigits cs
      (c :: p.1, p.2)
    else ([], c :: cs)

/-- `Scanner.scanNumber`: a digit run, then `.` plus a further digit run
only when at least one digit follows the dot (checked with `peekNext`
before the dot is consumed). -/
def scanNumber (cs : List Char) : List Char × List Char :=
  let p := takeDigits cs
  match p.2 with
  | c1 :: c2 :: rest2 =>
    if c1 = '.' && isDigitCh c2 then
      let q := takeDigits (c2 :: rest2)
      (p.1 ++ c1 :: q.1, q.2)
    else (p.1, p.2)
  | _ => (p.1, p.2)

/-- The alphanumeric-run loop of `Scanner.scanIdentifier`. -/
def takeAlphaNum : List Char → List Char × List Char
  | [] => ([], [])
  | c :: cs =>
    if isAlphaNumericCh c then
      let p := takeAlphaNum cs
      (c :: p.1, p.2)
    else ([], c :: cs)

/-- `Scanner.scanIdentifier`: one leading alpha character (when present)
followed by an alphanumeric run. -/
def scanIdentifier : List Char → List Char × List Char
  | [] => ([], [])
  | c :: cs =>
    if isAlphaCh c then
      let p := takeAlphaNum cs
      (c :: p.1, p.2)
    else takeAlphaNum (c :: cs)

/-- The body loop of `Scanner.scanString`: everything up to the matching
quote, or the fatal `Unterminated string` error at end of input. -/
def scanStringBody (q : Char) : List Char → Except String (List Char × List Char)
  | [] => .error "Unterminated string"
  | c :: cs =>
    if c = q then .ok ([], cs)
    else
      match scanStringBody q cs with
      | .error e => .error e
      | .ok p => .ok (c :: p.1, p.2)

/-- `Scanner.scanString`: consume the opening quote, then the body. -/
def scanString : List Char → Except String (List Char × List Char)
  | [] => .error "Unterminated string"
  | q :: cs => scanStringBody q cs

/-- `Scanner.scanOperator`: greedy two-character look-ahead for `== != <=
>= && ||` (the `peek() === ..` test is `head? = some ..`, which also covers
the `'\0'` end-of-input sentinel), single-character fallback for
`+ - * / % = ! < >`, fatal errors for a lone `&` or `|` and for any other
character.  Returns the token, the remaining characters and the updated
column. -/
def scanOperator (cs : List Char) (line col : Nat) : Except String (Token × List Char × Nat) :=
  match cs with
  | [] => .error ("Unknown operator: " ++ String.mk [Char.ofNat 0])
  | c :: rest =>
    if c = '+' then .ok (⟨.PLUS, "+", line, col + 1⟩, rest, col + 1)
    else if c = '-' then .ok (⟨.MINUS, "-", line, col + 1⟩, rest, col + 1)
    else if c = '*' then .ok (⟨.STAR, "*", line, col + 1⟩, rest, col + 1)
    else if c = '/' then .ok (⟨.SLASH, "/", line, col + 1⟩, rest, col + 1)
    else if c = '%' then .ok (⟨.PERCENT, "%", line, col + 1⟩, rest, col + 1)
    else if c = '=' then
      if rest.head? = some '=' then .ok (⟨.EQUAL_EQUAL, "==", line, col + 2⟩, rest.tail, col + 2)
      else .ok (⟨.EQUAL, "=", line, col + 1⟩, rest, col + 1)
    else if c = '!' then
      if rest.head? = some '=' then .ok (⟨.BANG_EQUAL, "!=", line, col + 2⟩, rest.tail, col + 2)
      else .ok (⟨.BANG, "!", line, col + 1⟩, rest, col + 1)
    else if c = '<' then
      if rest.head? = some '=' then .ok (⟨.LESS_EQUAL, "<=", line, col + 2⟩, rest.tail, col + 2)
      else .ok (⟨.LESS, "<", line, col + 1⟩, rest, col + 1)
    else if c = '>' then
      if rest.head? = some '=' then
        .ok (⟨.GREATER_EQUAL, ">=", line, col + 2⟩, rest.tail, col + 2)
      else .ok (⟨.GREATER, ">", line, col + 1⟩, rest, col + 1)
    else if c = '&' then
      if rest.head? = some '&' then .ok (⟨.AND, "&&", line, col + 2⟩, rest.tail, col + 2)
      else .error "Unexpected character: &"
    else if c = '|' then
      if rest.head? = some '|' then .ok (⟨.OR, "||", line, col + 2⟩, rest.tail, col + 2)
      else .error "Unexpected character: |"
    else .error ("Unknown operator: " ++ String.mk [c])

/-- The main loop of `Scanner.scanTokens`, with explicit fuel (every
iteration consumes at least one character, so `input length + 1` fuel
always suffices; see `scanTokens`). -/
def scanTokensAux : Nat → List Char → Nat → Nat → Except String (List Token)
  | 0, _, _, _ => .error "scanner fuel exhausted"
  | fuel + 1, cs, line, col =>
    let w := skipWhiteSpace cs line col
    match w.1, w.2.1, w.2.2 with
    | [], line1, col1 => .ok [⟨.EOF, "", line1, col1⟩]
    | c :: cs1, line1, col1 =>
      if isDigitCh c then
        let p := scanNumber (c :: cs1)
        let col2 := col1 + p.1.length
        (⟨.NUMBER, String.mk p.1, line1, col2⟩ :: ·) <$> scanTokensAux fuel p.2 line1 col2
      else if isAlphaCh c then
        let p := scanIdentifier (c :: cs1)
        let col2 := col1 + p.1.length
        let s := String.mk p.1
        (⟨lookupIdentifier s, s, line1, col2⟩ :: ·) <$> scanTokensAux fuel p.2 line1 col2
      else if c = '"' || c = '\'' then
        match scanString (c :: cs1) with
        | .error e => .error e
        | .ok p =>
          let col2 := col1 + p.1.length + 2
          (⟨.STRING, String.mk p.1, line1, col2⟩ :: ·) <$> scanTokensAux fuel p.2 line1 col2
      else if c = '(' then
        (⟨.LPAREN, "(", line1, col1 + 1⟩ :: ·) <$> scanTokensAux fuel cs1 line1 (col1 + 1)
      else if c = ')' then
        (⟨.RPAREN, ")", line1, col1 + 1⟩ :: ·) <$> scanTokensAux fuel cs1 line1 (col1 + 1)
      else
        match scanOperator (c :: cs1) line1 col1 with
        | .error e => .error e
        | .ok (tok, rest, col2) => (tok :: ·) <$> scanTokensAux fuel rest line1 col2

/-- `Scanner.scanTokens` on a source string: tokens terminated by one
`EOF` token, or a fatal scan error. -/
def scanTokens (s : String) : Except String (List Token) :=
  scanTokensAux (s.length + 1) s.data 0 0

/-!
## JavaScript numbers

`JSNum` models the JS number type: exact rationals (unnormalized integer
fractions) plus `Infinity`, `-Infinity` and `NaN`.  The operations below
mirror the JS operators the interpreter applies to numbers; binary
floating-point rounding is not modelled (no claim depends on it).
-/

/-- Model of a JavaScript number: an exact (unnormalized) fraction
`n / d` with `d > 0` maintained by construction, or one of the special
values.  Fractions are compared by cross-multiplication, so the
representation is never visible through the operations. -/
inductive JSNum where
  | num (n : Int) (d : Int)
  | posInf
  | negInf
  | nan
  deriving DecidableEq, Repr

/-- An integer-valued JS number. -/
def JSNum.int (n : Int) : JSNum := .num n 1

/-- Build a fraction with a positive denominator. -/
def JSNum.mkRat (n d : Int) : JSNum := if d < 0 then .num (-n) (-d) else .num n d

/-- JS strict equality `===` on numbers: `NaN` is unequal to everything,
including itself; fractions compare by value. -/
def jsStrictEq : JSNum → JSNum → Bool
  | .num a b, .num c d => a * d = c * b
  | .posInf, .posInf => true
  | .negInf, .negInf => true
  | _, _ => false

/-- Value equality of number payloads with `NaN` equal to itself — the
literal reading of "their payloads are equal" (used only to state claim
C7; the code itself uses `jsStrictEq`). -/
def payloadEqNum : JSNum → JSNum → Bool
  | .num a b, .num c d => a * d = c * b
  | .posInf, .posInf => true
  | .negInf, .negInf => true
  | .nan, .nan => true
  | _, _ => false

/-- JS `+` on numbers. -/
def jsAdd : JSNum → JSNum → JSNum
  | .num a b, .num c d => .num (a * d + c * b) (b * d)
  | .nan, _ => .nan
  | _, .nan => .nan
  | .posInf, .negInf => .nan
  | .negInf, .posInf => .nan
  | .posInf, _ => .posInf
  | _, .posInf => .posInf
  | .negInf, _ => .negInf
  | _, .negInf => .negInf

/-- JS unary `-` on numbers. -/
def jsNeg : JSNum → JSNum
  | .num a b => .num (-a) b
  | .posInf => .negInf
  | .negInf => .posInf
  | .nan => .nan

/-- JS binary `-` on numbers. -/
def jsSub (a b : JSNum) : JSNum := jsAdd a (jsNeg b)

/-- JS `*` on numbers. -/
def jsMul : JSNum → JSNum → JSNum
  | .num a b, .num c d => .num (a * c) (b * d)
  | .nan, _ => .nan
  | _, .nan => .nan
  | .posInf, .posInf => .posInf
  | .posInf, .negInf => .negInf
  | .negInf, .posInf => .negInf
  | .negInf, .negInf => .posInf
  | .posInf, .num c d => if c = 0 then .nan else if 0 < c * d then .posInf else .negInf
  | .num a b, .posInf => if a = 0 then .nan else if 0 < a * b then .posInf else .negInf
  | .negInf, .num c d => if c = 0 then .nan else if 0 < c * d then .negInf else .posInf
  | .num a b, .negInf => if a = 0 then .nan else if 0 < a * b then .negInf else .posInf

/-- JS `/` on numbers.  (The interpreter checks its divisor against `0`
before ever calling this, so the zero-divisor case is unreachable from
`applyBinaryOp`; it is defined anyway, with JS's `q / 0 = ±Infinity`,
`0 / 0 = NaN`.) -/
def jsDiv : JSNum → JSNum → JSNum
  | .num a b, .num c d =>
    if c = 0 then (if a = 0 then .nan else if 0 < a * b then .posInf else .negInf)
    else .mkRat (a * d) (b * c)
  | .nan, _ => .nan
  | _, .nan => .nan
  | .posInf, .posInf => .nan
  | .posInf, .negInf => .nan
  | .negInf, .posInf => .nan
  | .negInf, .negInf => .nan
  | .posInf, .num c d => if 0 ≤ c * d then .posInf else .negInf
  | .negInf, .num c d => if 0 ≤ c * d then .negInf else .posInf
  | .num _ _, .posInf => .num 0 1
  | .num _ _, .negInf => .num 0 1

/-- JS `%` on numbers: `x - y * trunc(x / y)` (remainder with the sign of
the dividend). -/
def jsMod : JSNum → JSNum → JSNum
  | .num a b, .num c d =>
    if c = 0 then .nan
    else
      let t := Int.tdiv (a * d) (b * c)
      jsSub (.num a b) (jsMul (.num c d) (.num t 1))
  | .num a b, .posInf => .num a b
  | .num a b, .negInf => .num a b
  | _, _ => .nan

/-- JS `<` on numbers (`NaN` compares false). -/
def jsLt : JSNum → JSNum → Bool
  | .num a b, .num c d => a * d < c * b
  | .num _ _, .posInf => true
  | .negInf, .num _ _ => true
  | .negInf, .posInf => true
  | _, _ => false

/-- JS `<=` on numbers (`NaN` compares false). -/
def jsLe : JSNum → JSNum → Bool
  | .num a b, .num c d => a * d ≤ c * b
  | .num _ _, .posInf => true
  | .negInf, .num _ _ => true
  | .negInf, .posInf => true
  | .posInf, .posInf => true
  | .negInf, .negInf => true
  | _, _ => false

/-- `Number(lexeme)` on a lexeme produced by `scanNumber` (a digit run,
optionally `.` and a digit run). -/
def digitsToNat (cs : List Char) : Nat :=
  cs.foldl (fun acc c => 10 * acc + (c.toNat - 48)) 0

/-- Split a character list at `.` occurrences (kernel-computable stand-in
for `String.splitOn "."`). -/
def splitOnDot (cs : List Char) : List (List Char) :=
  match cs with
  | [] => [[]]
  | c :: rest =>
    let r := splitOnDot rest
    if c = '.' then [] :: r
    else
      match r with
      | [] => [[c]]
      | h :: t => (c :: h) :: t

/-- Conversion of a `NUMBER` token's lexeme to its numeric value, as done
by `Number(token.value)` in `Parser.parsePrimary`. -/
def parseNumberLexeme (s : String) : JSNum :=
  match splitOnDot s.data with
  | [i] => .num (digitsToNat i) 1
  | [i, f] =>
    .num ((digitsToNat i : Int) * 10 ^ f.length + (digitsToNat f : Int)) (10 ^ f.length)
  | _ => .nan

/-- Modelled subset of JS `Number(string)` used by `toNumber` on string
values: optional sign, digit run, optional fraction; the empty string is
`0`; anything else is `NaN`.  (JS also trims whitespace and accepts
hex/exponent forms; no claim depends on those inputs, and `toNumber`
collapses `NaN` to `0` anyway.) -/
def jsStringToNumber (s : String) : JSNum :=
  match s.data with
  | [] => .num 0 1
  | '-' :: rest =>
    if rest ≠ [] && rest.all (fun c => isDigitCh c || c = '.') then
      jsNeg (parseNumberLexeme (String.mk rest))
    else .nan
  | cs =>
    if cs.all (fun c => isDigitCh c || c = '.') then parseNumberLexeme (String.mk cs)
    else .nan

def jsNumToString (n : JSNum) : String :=
  match n with
  | .nan => "NaN"
  | .posInf => "Infinity"
  | .negInf => "-Infinity"
  | .num a b =>
    let neg : Bool := a * b < 0
    let na := a.natAbs
    let nb := b.natAbs
    if na % nb = 0 then
      (if neg then "-" else "") ++ Nat.repr (na / nb)
    else if (10 ^ 9 : Nat) % nb = 0 then
      let scaled : Nat := na * ((10 ^ 9) / nb)
      let whole := scaled / 10 ^ 9
      let fracDigits := (Nat.repr (10 ^ 9 + scaled % 10 ^ 9)).drop 1
      let trimmed := fracDigits.dropRightWhile (fun c => c = '0')
      (if neg then "-" else "") ++ Nat.repr whole ++ "." ++ trimmed
    else "[unmodelled-decimal]"

/-!
## Runtime values (`src/interpreter/values.ts`)
-/

/-- `RuntimeValue`: a tagged union over number, string, boolean, null and
undefined payloads. -/
inductive RTVal where
  | num (n : JSNum)
  | str (s : String)
  | bool (b : Bool)
  | null
  | undef
  deriving DecidableEq, Repr

/-- `toBoolean`: JS truthiness. -/
def toBooleanV : RTVal → Bool
  | .bool b => b
  | .num n =>
    match n with
    | .num a _ => a ≠ 0
    | .posInf => true
    | .negInf => true
    | .nan => false
  | .str s => s.length > 0
  | .null => false
  | .undef => false

/-- `toString` on runtime values. -/
def toStringV : RTVal → String
  | .num n => jsNumToString n
  | .bool b => if b then "true" else "false"
  | .str s => s
  | .null => "null"
  | .undef => "undefined"

/-- `toNumber` on runtime values: numbers pass through, booleans are 1/0,
strings go through `Number(...)` with `NaN` collapsed to `0`, `null` is
`0`, `undefined` is `NaN`. -/
def toNumberV : RTVal → JSNum
  | .num n => n
  | .bool b => if b then .num 1 1 else .num 0 1
  | .str s =>
    let n := jsStringToNumber s
    if n = .nan then .num 0 1 else n
  | .null => .num 0 1
  | .undef => .nan

/-- `areValuesEqual`: same-type values compare by `===` on the payload;
`null` and `undefined` are mutually equal; if either side is a number both
sides are coerced with `toNumber` and compared with `===`; all remaining
mixed pairs are unequal. -/
def areValuesEqual : RTVal → RTVal → Bool
  | .num a, .num b => jsStrictEq a b
  | .str a, .str b => a = b
  | .bool a, .bool b => a = b
  | .null, .null => true
  | .undef, .undef => true
  | .null, .undef => true
  | .undef, .null => true
  | l, r =>
    if (match l with | .num _ => true | _ => false) ||
       (match r with | .num _ => true | _ => false) then
      jsStrictEq (toNumberV l) (toNumberV r)
    else false

/-!
## AST (`src/ast/nodes.ts`, built by `src/ast/builders.ts`)
-/

/-- The value carried by a `LiteralExpression`
(`number | string | boolean | null`). -/
inductive LitValue where
  | numV (n : JSNum)
  | strV (s : String)
  | boolV (b : Bool)
  | nullV
  deriving DecidableEq, Repr

/-- Expression nodes.  `assignE` carries the left-hand `Identifier`'s name
(the node type restricts the left side to an identifier). -/
inductive Expr where
  | literal (value : LitValue) (raw : String)
  | ident (name : String)
  | binary (left : Expr) (op : TokenType) (right : Expr)
  | unaryE (op : TokenType) (argument : Expr)
  | logical (left : Expr) (op : TokenType) (right : Expr)
  | assignE (leftName : String) (op : TokenType) (right : Expr)
  | call (callee : Expr) (args : List Expr)
  | grouping (e : Expr)
  deriving Repr

/-- `let` vs `const` declaration kind. -/
inductive VarKind where
  | vlet
  | vconst
  deriving DecidableEq, Repr

/-- Statement nodes.  A `funcDecl` body is the statement list of its
`BlockStatement`. -/
inductive Stmt where
  | exprStmt (e : Expr)
  | varDecl (kind : VarKind) (name : String) (init : Option Expr)
  | block (body : List Stmt)
  | ifS (cond : Expr) (conseq : Stmt) (alt : Option Stmt)
  | whileS (cond : Expr) (body : Stmt)
  | forS (finit : Option Stmt) (cond : Option Expr) (update : Option Expr) (body : Stmt)
  | funcDecl (name : String) (params : List String) (body : List Stmt)
  | returnS (arg : Option Expr)
  | breakS
  | continueS
  deriving Repr

/-- A `Program` node is its ordered top-level statement list. -/
abbrev Program := List Stmt

/-- The `type` string of a statement node, as used in the interpreter's
and analyzer's `Unknown statement type` messages. -/
def stmtTypeStr : Stmt → String
  | .exprStmt _ => "ExpressionStatement"
  | .varDecl _ _ _ => "VariableDeclaration"
  | .block _ => "BlockStatement"
  | .ifS _ _ _ => "IfStatement"
  | .whileS _ _ => "WhileStatement"
  | .forS _ _ _ _ => "ForStatement"
  | .funcDecl _ _ _ => "FunctionDeclaration"
  | .returnS _ => "ReturnStatement"
  | .breakS => "BreakStatement"
  | .continueS => "ContinueStatement"

/-- The enum member name of a `TokenType`, as produced by
`operator.toString()` in error messages. -/
def tokenTypeStr : TokenType → String
  | .NUMBER => "NUMBER" | .STRING => "STRING" | .IDENTIFIER => "IDENTIFIER"
  | .TRUE => "TRUE" | .FALSE => "FALSE" | .NULL => "NULL"
  | .PLUS => "PLUS" | .MINUS => "MINUS" | .STAR => "STAR" | .SLASH => "SLASH"
  | .PERCENT => "PERCENT"
  | .EQUAL_EQUAL => "EQUAL_EQUAL" | .BANG_EQUAL => "BANG_EQUAL"
  | .LESS => "LESS" | .LESS_EQUAL => "LESS_EQUAL"
  | .GREATER => "GREATER" | .GREATER_EQUAL => "GREATER_EQUAL"
  | .BANG => "BANG" | .AND => "AND" | .OR => "OR"
  | .EQUAL => "EQUAL"
  | .LPAREN => "LPAREN" | .RPAREN => "RPAREN"
  | .LBRACE => "LBRACE" | .RBRACE => "RBRACE"
  | .LBRACKET => "LBRACKET" | .RBRACKET => "RBRACKET"
  | .SEMICOLON => "SEMICOLON" | .COMMA => "COMMA" | .DOT => "DOT"
  | .COLON => "COLON"
  | .LET => "LET" | .CONST => "CONST" | .FUNCTION => "FUNCTION"
  | .RETURN => "RETURN" | .IF => "IF" | .ELSE => "ELSE"
  | .WHILE => "WHILE" | .FOR => "FOR"
  | .BREAK => "BREAK" | .CONTINUE => "CONTINUE" | .PRINT => "PRINT"
  | .EOF => "EOF" | .ILLEGAL => "ILLEGAL"

/-!
## Parser (`src/parser/parser.ts`)

The parser's mutable token cursor `#current` becomes an explicit index; a
successful parse returns the parsed node together with the updated index,
and a thrown syntax error becomes `Except.error`.  Out-of-range token
access is modelled as an `EOF` token (the scanner terminates every token
list with `EOF` and the parser never advances past it).
-/

/-- `Parser.peek` (out of range modelled as `EOF`). -/
def peekT (toks : List Token) (i : Nat) : Token := toks.getD i ⟨.EOF, "", 0, 0⟩

/-- `Parser.isAtEnd`. -/
def isAtEndT (toks : List Token) (i : Nat) : Bool := (peekT toks i).type = .EOF

/-- `Parser.check`: false at end of input, else compares the current
token's type. -/
def checkT (toks : List Token) (i : Nat) (ty : TokenType) : Bool :=
  if isAtEndT toks i then false else (peekT toks i).type = ty

/-- `Parser.match` over a list of candidate types (advances on success). -/
def matchAny (toks : List Token) (i : Nat) (tys : List TokenType) : Bool :=
  tys.any (checkT toks i ·)

/-- `Parser.error`: `Line {line}:{column} - Error at {token}: {message}`
with `'lexeme'` or `end of file` as the token description. -/
def parserError (tok : Token) (msg : String) : String :=
  "Line " ++ Nat.repr tok.line ++ ":" ++ Nat.repr tok.column ++ " - Error at " ++
    (if tok.type = .EOF then "end of file" else "'" ++ tok.value ++ "'") ++ ": " ++ msg

/-- `Parser.consume`: advance past a token of the expected type or throw a
syntax error at the current token. -/
def consumeT (toks : List Token) (i : Nat) (ty : TokenType) (msg : String) :
    Except String (Token × Nat) :=
  if checkT toks i ty then .ok (peekT toks i, i + 1) else .error (parserError (peekT toks i) msg)

/-- Call descriptors for the expression grammar
`parseExpression .. parsePrimary`.  The TypeScript methods are mutually
recursive; to keep the embedding kernel-computable they are expressed as
one structurally fuel-recursive function `parseExprGo` dispatching on this
tag (the `..Loop` tags carry the accumulator of the corresponding
`while (match(..))` fold), with the original method names as wrappers
below. -/
inductive PE where
  | exprP
  | assignP
  | lorP
  | lorLoopP (acc : Expr)
  | landP
  | landLoopP (acc : Expr)
  | eqP
  | eqLoopP (acc : Expr)
  | cmpP
  | cmpLoopP (acc : Expr)
  | termP
  | termLoopP (acc : Expr)
  | factorP
  | factorLoopP (acc : Expr)
  | unaryP
  | primaryP

/-- The expression grammar of `Parser`, lowest to highest precedence:
`assignment → logical-or → logical-and → equality → comparison → term →
factor → unary → primary`.  Each tag's case is the body of the
corresponding TypeScript method. -/
def parseExprGo : Nat → PE → List Token → Nat → Except String (Expr × Nat)
  | 0, _, _, _ => .error "parser fuel exhausted"
  | fuel + 1, tag, toks, i =>
    match tag with
    | .exprP => parseExprGo fuel .assignP toks i
    | .assignP => do
      let (expr, i1) ← parseExprGo fuel .lorP toks i
      if checkT toks i1 .EQUAL then do
        let op := (peekT toks i1).type
        let (value, i2) ← parseExprGo fuel .assignP toks (i1 + 1)
        match expr with
        | .ident name => .ok (.assignE name op value, i2)
        | _ => .error (parserError (peekT toks (i2 - 1)) "Invalid assignment target")
      else .ok (expr, i1)
    | .lorP => do
      let (e, i1) ← parseExprGo fuel .landP toks i
      parseExprGo fuel (.lorLoopP e) toks i1
    | .lorLoopP acc =>
      if checkT toks i .OR then do
        let op := (peekT toks i).type
        let (r, i1) ← parseExprGo fuel .landP toks (i + 1)
        parseExprGo fuel (.lorLoopP (.logical acc op r)) toks i1
      else .ok (acc, i)
    | .landP => do
      let (e, i1) ← parseExprGo fuel .eqP toks i
      parseExprGo fuel (.landLoopP e) toks i1
    | .landLoopP acc =>
      if checkT toks i .AND then do
        let op := (peekT toks i).type
        let (r, i1) ← parseExprGo fuel .eqP toks (i + 1)
        parseExprGo fuel (.landLoopP (.logical acc op r)) toks i1
      else .ok (acc, i)
    | .eqP => do
      let (e, i1) ← parseExprGo fuel .cmpP toks i
      parseExprGo fuel (.eqLoopP e) toks i1
    | .eqLoopP acc =>
      if matchAny toks i [.EQUAL_EQUAL, .BANG_EQUAL] then do
        let op := (peekT toks i).type
        let (r, i1) ← parseExprGo fuel .cmpP toks (i + 1)
        parseExprGo fuel (.eqLoopP (.binary acc op r)) toks i1
      else .ok (acc, i)
    | .cmpP => do
      let (e, i1) ← parseExprGo fuel .termP toks i
      parseExprGo fuel (.cmpLoopP e) toks i1
    | .cmpLoopP acc =>
      if matchAny toks i [.LESS, .LESS_EQUAL, .GREATER, .GREATER_EQUAL] then do
        let op := (peekT toks i).type
        let (r, i1) ← parseExprGo fuel .termP toks (i + 1)
        parseExprGo fuel (.cmpLoopP (.binary acc op r)) toks i1
      else .ok (acc, i)
    | .termP => do
      let (e, i1) ← parseExprGo fuel .factorP toks i
      parseExprGo fuel (.termLoopP e) toks i1
    | .termLoopP acc =>
      if matchAny toks i [.PLUS, .MINUS] then do
        let op := (peekT toks i).type
        let (r, i1) ← parseExprGo fuel .factorP toks (i + 1)
        parseExprGo fuel (.termLoopP (.binary acc op r)) toks i1
      else .ok (acc, i)
    | .factorP => do
      let (e, i1) ← parseExprGo fuel .unaryP toks i
      parseExprGo fuel (.factorLoopP e) toks i1
    | .factorLoopP acc =>
      if matchAny toks i [.STAR, .SLASH, .PERCENT] then do
        let op := (peekT toks i).type
        let (r, i1) ← parseExprGo fuel .unaryP toks (i + 1)
        parseExprGo fuel (.factorLoopP (.binary acc op r)) toks i1
      else .ok (acc, i)
    | .unaryP =>
      if matchAny toks i [.BANG, .MINUS] then do
        let op := (peekT toks i).type
        let (r, i1) ← parseExprGo fuel .unaryP toks (i + 1)
        .ok (.unaryE op r, i1)
      else parseExprGo fuel .primaryP toks i
    | .primaryP =>
      if checkT toks i .NUMBER then
        let tok := peekT toks i
        .ok (.literal (.numV (parseNumberLexeme tok.value)) tok.value, i + 1)
      else if checkT toks i .STRING then
        let tok := peekT toks i
        .ok (.literal (.strV tok.value) ("\"" ++ tok.value ++ "\""), i + 1)
      else if checkT toks i .TRUE then .ok (.literal (.boolV true) "true", i + 1)
      else if checkT toks i .FALSE then .ok (.literal (.boolV false) "false", i + 1)
      else if checkT toks i .NULL then .ok (.literal .nullV "null", i + 1)
      else if checkT toks i .IDENTIFIER then .ok (.ident (peekT toks i).value, i + 1)
      else if checkT toks i .LPAREN then do
        let (e, i1) ← parseExprGo fuel .exprP toks (i + 1)
        let (_, i2) ← consumeT toks i1 .RPAREN "Expected ')' after expression"
        .ok (.grouping e, i2)
      else .error (parserError (peekT toks i) "Expected expression")

/-- `Parser.parseExpression`. -/
def parseExpression (fuel : Nat) (toks : List Token) (i : Nat) : Except String (Expr × Nat) :=
  parseExprGo fuel .exprP toks i

/-- `Parser.parseAssignment`: right-associative; a non-identifier target
is an `Invalid assignment target` error thrown at `previous()` after both
sides were parsed. -/
def parseAssignment (fuel : Nat) (toks : List Token) (i : Nat) : Except String (Expr × Nat) :=
  parseExprGo fuel .assignP toks i

/-- `Parser.parseLogicalOr`. -/
def parseLogicalOr (fuel : Nat) (toks : List Token) (i : Nat) : Except String (Expr × Nat) :=
  parseExprGo fuel .lorP toks i

/-- `Parser.parseLogicalAnd`. -/
def parseLogicalAnd (fuel : Nat) (toks : List Token) (i : Nat) : Except String (Expr × Nat) :=
  parseExprGo fuel .landP toks i

/-- `Parser.parseEquality`. -/
def parseEquality (fuel : Nat) (toks : List Token) (i : Nat) : Except String (Expr × Nat) :=
  parseExprGo fuel .eqP toks i

/-- `Parser.parseComparison`. -/
def parseComparison (fuel : Nat) (toks : List Token) (i : Nat) : Except String (Expr × Nat) :=
  parseExprGo fuel .cmpP toks i

/-- `Parser.parseTerm` (`+`, `-`; left-associative fold). -/
def parseTerm (fuel : Nat) (toks : List Token) (i : Nat) : Except String (Expr × Nat) :=
  parseExprGo fuel .termP toks i

/-- `Parser.parseFactor` (`*`, `/`, `%`). -/
def parseFactor (fuel : Nat) (toks : List Token) (i : Nat) : Except String (Expr × Nat) :=
  parseExprGo fuel .factorP toks i

/-- `Parser.parseUnary` (`!`, `-`; right-recursive). -/
def parseUnary (fuel : Nat) (toks : List Token) (i : Nat) : Except String (Expr × Nat) :=
  parseExprGo fuel .unaryP toks i

/-- `Parser.parsePrimary`: literals, identifiers and parenthesised
sub-expressions.  Note there is no function-call production: an
`IDENTIFIER` is returned as a plain `Identifier` node without looking at
the following token. -/
def parsePrimary (fuel : Nat) (toks : List Token) (i : Nat) : Except String (Expr × Nat) :=
  parseExprGo fuel .primaryP toks i

/-- Call descriptors for the statement grammar (`parseStatement` and the
construct-specific parsers).  As with the expression grammar, the mutual
TypeScript methods become one structurally fuel-recursive function with
the original names as wrappers.  `varDeclP` carries the already-consumed
`let`/`const` keyword's kind; `blockBodyP` is the statement loop inside
`parseBlockStatement`, which is the one production returning a statement
list rather than a single statement. -/
inductive PS where
  | stmtP
  | varDeclP (kind : VarKind)
  | ifP
  | whileP
  | forP
  | returnP
  | breakP
  | continueP
  | blockP
  | blockBodyP
  | exprStmtP

/-- The statement grammar of `Parser`.  Each tag's case is the body of
the corresponding TypeScript method. -/
def parseStmtGo : Nat → PS → List Token → Nat → Except String ((Stmt ⊕ List Stmt) × Nat)
  | 0, _, _, _ => .error "parser fuel exhausted"
  | fuel + 1, tag, toks, i =>
    match tag with
    | .stmtP =>
      if matchAny toks i [.LET, .CONST] then
        let kind : VarKind := if (peekT toks i).type = .LET then .vlet else .vconst
        parseStmtGo fuel (.varDeclP kind) toks (i + 1)
      else if checkT toks i .IF then parseStmtGo fuel .ifP toks (i + 1)
      else if checkT toks i .WHILE then parseStmtGo fuel .whileP toks (i + 1)
      else if checkT toks i .FOR then parseStmtGo fuel .forP toks (i + 1)
      else if checkT toks i .RETURN then parseStmtGo fuel .returnP toks (i + 1)
      else if checkT toks i .BREAK then parseStmtGo fuel .breakP toks (i + 1)
      else if checkT toks i .CONTINUE then parseStmtGo fuel .continueP toks (i + 1)
      else if checkT toks i .LBRACE then parseStmtGo fuel .blockP toks i
      else parseStmtGo fuel .exprStmtP toks i
    | .varDeclP kind => do
      let (nameTok, i1) ← consumeT toks i .IDENTIFIER "Expected variable name"
      let (finit, i2) ←
        if checkT toks i1 .EQUAL then do
          let (e, i2) ← parseExpression fuel toks (i1 + 1)
          pure (some e, i2)
        else pure (none, i1)
      if kind = .vconst && finit.isNone then
        .error (parserError (peekT toks (i2 - 1)) "const declaration must have an initializer")
      else do
        let (_, i3) ← consumeT toks i2 .SEMICOLON "Expected ';' after variable declaration"
        .ok (.inl (.varDecl kind nameTok.value finit), i3)
    | .ifP => do
      let (_, i1) ← consumeT toks i .LPAREN "Expected '(' after 'if'"
      let (cond, i2) ← parseExpression fuel toks i1
      let (_, i3) ← consumeT toks i2 .RPAREN "Expected ')' after condition"
      let (conseq, i4) ← parseStmtGo fuel .stmtP toks i3
      match conseq with
      | .inr _ => .error "parser internal error"
      | .inl conseqS =>
        if checkT toks i4 .ELSE then do
          let (alt, i5) ← parseStmtGo fuel .stmtP toks (i4 + 1)
          match alt with
          | .inr _ => .error "parser internal error"
          | .inl altS => .ok (.inl (.ifS cond conseqS (some altS)), i5)
        else .ok (.inl (.ifS cond conseqS none), i4)
    | .whileP => do
      let (_, i1) ← consumeT toks i .LPAREN "Expected '(' after 'while'"
      let (cond, i2) ← parseExpression fuel toks i1
      let (_, i3) ← consumeT toks i2 .RPAREN "Expected ')' after condition"
      let (body, i4) ← parseStmtGo fuel .stmtP toks i3
      match body with
      | .inr _ => .error "parser internal error"
      | .inl bodyS => .ok (.inl (.whileS cond bodyS), i4)
    | .forP => do
      let (_, i1) ← consumeT toks i .LPAREN "Expected '(' after 'for'"
      let (finit, i2) ←
        if checkT toks i1 .SEMICOLON then pure ((none : Option Stmt), i1 + 1)
        else if matchAny toks i1 [.LET, .CONST] then do
          let kind : VarKind := if (peekT toks i1).type = .LET then .vlet else .vconst
          let (d, i2) ← parseStmtGo fuel (.varDeclP kind) toks (i1 + 1)
          match d with
          | .inr _ => .error "parser internal error"
          | .inl dS => pure (some dS, i2)
        else do
          let (s, i2) ← parseStmtGo fuel .exprStmtP toks i1
          match s with
          | .inr _ => .error "parser internal error"
          | .inl sS => pure (some sS, i2)
      let (cond, i3) ←
        if !checkT toks i2 .SEMICOLON then do
          let (c, i3) ← parseExpression fuel toks i2
          pure (some c, i3)
        else pure (none, i2)
      let (_, i4) ← consumeT toks i3 .SEMICOLON "Expected ';' after loop condition"
      let (update, i5) ←
        if !checkT toks i4 .RPAREN then do
          let (u, i5) ← parseExpression fuel toks i4
          pure (some u, i5)
        else pure (none, i4)
      let (_, i6) ← consumeT toks i5 .RPAREN "Expected ')' after for clauses"
      let (body, i7) ← parseStmtGo fuel .stmtP toks i6
      match body with
      | .inr _ => .error "parser internal error"
      | .inl bodyS => .ok (.inl (.forS finit cond update bodyS), i7)
    | .returnP => do
      let (v, i1) ←
        if !checkT toks i .SEMICOLON then do
          let (e, i1) ← parseExpression fuel toks i
          pure (some e, i1)
        else pure (none, i)
      let (_, i2) ← consumeT toks i1 .SEMICOLON "Expected ';' after return value"
      .ok (.inl (.returnS v), i2)
    | .breakP => do
      let (_, i1) ← consumeT toks i .SEMICOLON "Expected ';' after 'break'"
      .ok (.inl .breakS, i1)
    | .continueP => do
      let (_, i1) ← consumeT toks i .SEMICOLON "Expected ';' after 'continue'"
      .ok (.inl .continueS, i1)
    | .blockP => do
      let (_, i1) ← consumeT toks i .LBRACE "Expected '\x7b'"
      let (body, i2) ← parseStmtGo fuel .blockBodyP toks i1
      match body with
      | .inl _ => .error "parser internal error"
      | .inr stmts => do
        let (_, i3) ← consumeT toks i2 .RBRACE "Expected '\x7d' after block"
        .ok (.inl (.block stmts), i3)
    | .blockBodyP =>
      if !checkT toks i .RBRACE && !isAtEndT toks i then do
        let (s, i1) ← parseStmtGo fuel .stmtP toks i
        match s with
        | .inr _ => .error "parser internal error"
        | .inl sS => do
          let (rest, i2) ← parseStmtGo fuel .blockBodyP toks i1
          match rest with
          | .inl _ => .error "parser internal error"
          | .inr restS => .ok (.inr (sS :: restS), i2)
      else .ok (.inr [], i)
    | .exprStmtP => do
      let (e, i1) ← parseExpression fuel toks i
      let (_, i2) ← consumeT toks i1 .SEMICOLON "Expected ';' after expression"
      .ok (.inl (.exprStmt e), i2)

/-- `Parser.parseStatement`. -/
def parseStatement (fuel : Nat) (toks : List Token) (i : Nat) : Except String (Stmt × Nat) :=
  match parseStmtGo fuel .stmtP toks i with
  | .ok (.inl s, j) => .ok (s, j)
  | .ok (.inr _, _) => .error "parser internal error"
  | .error e => .error e

/-- `Parser.parseExpressionStatement`: an expression followed by a
mandatory `SEMICOLON`. -/
def parseExpressionStatement (fuel : Nat) (toks : List Token) (i : Nat) :
    Except String (Stmt × Nat) :=
  match parseStmtGo fuel .exprStmtP toks i with
  | .ok (.inl s, j) => .ok (s, j)
  | .ok (.inr _, _) => .error "parser internal error"
  | .error e => .error e

/-- `Parser.parseBlockStatement` (consumes its own braces). -/
def parseBlockStatement (fuel : Nat) (toks : List Token) (i : Nat) : Except String (Stmt × Nat) :=
  match parseStmtGo fuel .blockP toks i with
  | .ok (.inl s, j) => .ok (s, j)
  | .ok (.inr _, _) => .error "parser internal error"
  | .error e => .error e

/-- The top-level statement loop of `Parser.parse`. -/
def parseProgramLoop (fuel : Nat) (toks : List Token) (i : Nat) :
    Except String (List Stmt × Nat) :=
  match fuel with
  | 0 => .error "parser fuel exhausted"
  | fuel + 1 =>
    if !isAtEndT toks i then do
      let (s, i1) ← parseStatement fuel toks i
      let (rest, i2) ← parseProgramLoop fuel toks i1
      .ok (s :: rest, i2)
    else .ok ([], i)

/-- `Parser.parse`: the whole token list as a `Program`. -/
def parseProgram (fuel : Nat) (toks : List Token) : Except String Program :=
  (·.1) <$> parseProgramLoop fuel toks 0

/-!
## Type system (`src/semantic/types.ts`) and symbol environment
(`src/semantic/environment.ts`)
-/

/-- `TyName`, extended with the `function` type the analyzer assigns to
function declarations. -/
inductive TyName where
  | numberT
  | stringT
  | booleanT
  | nullT
  | anyT
  | undefinedT
  | functionT
  deriving DecidableEq, Repr

/-- The literal string of a `TyName`, for error messages. -/
def typeNameStr : TyName → String
  | .numberT => "number"
  | .stringT => "string"
  | .booleanT => "boolean"
  | .nullT => "null"
  | .anyT => "any"
  | .undefinedT => "undefined"
  | .functionT => "function"

/-- `inferLiteralType`. -/
def inferLiteralType : LitValue → TyName
  | .numV _ => .numberT
  | .strV _ => .stringT
  | .boolV _ => .booleanT
  | .nullV => .nullT

/-- `getOperatorSymbol` (defaulting to the enum member name). -/
def getOperatorSymbol (op : TokenType) : String :=
  match op with
  | .PLUS => "+" | .MINUS => "-" | .STAR => "*" | .SLASH => "/" | .PERCENT => "%"
  | .LESS => "<" | .LESS_EQUAL => "<=" | .GREATER => ">" | .GREATER_EQUAL => ">="
  | .EQUAL_EQUAL => "==" | .BANG_EQUAL => "!="
  | .BANG => "!" | .AND => "&&" | .OR => "||"
  | t => tokenTypeStr t

/-- `checkBinaryOperation`: result type, or a thrown type error. -/
def checkBinaryOperation (l : TyName) (op : TokenType) (r : TyName) :
    Except String TyName :=
  if op = .PLUS || op = .MINUS || op = .STAR || op = .SLASH || op = .PERCENT then
    if op = .PLUS && (l = .stringT || r = .stringT) then .ok .stringT
    else if l = .numberT && r = .numberT then .ok .numberT
    else if l = .anyT || r = .anyT then .ok .anyT
    else
      .error ("Type error: Cannot perform " ++ getOperatorSymbol op ++ " operation on " ++
        typeNameStr l ++ " and " ++ typeNameStr r)
  else if op = .LESS || op = .LESS_EQUAL || op = .GREATER || op = .GREATER_EQUAL then
    if l = .numberT && r = .numberT then .ok .booleanT
    else if l = .stringT && r = .stringT then .ok .booleanT
    else if l = .anyT || r = .anyT then .ok .booleanT
    else
      .error ("Type error: Cannot compare " ++ typeNameStr l ++ " and " ++ typeNameStr r ++
        " with " ++ getOperatorSymbol op)
  else if op = .EQUAL_EQUAL || op = .BANG_EQUAL then .ok .booleanT
  else .error ("Unknown binary operator: " ++ tokenTypeStr op)

/-- `checkUnaryOperation`. -/
def checkUnaryOperation (op : TokenType) (operand : TyName) : Except String TyName :=
  if op = .BANG then .ok .booleanT
  else if op = .MINUS then
    if operand = .numberT then .ok .numberT
    else if operand = .anyT then .ok .anyT
    else .error ("Type error: Cannot negate " ++ typeNameStr operand)
  else .error ("Unknown unary operator: " ++ tokenTypeStr op)

/-- `checkLogicalOperation`. -/
def checkLogicalOperation (op : TokenType) : Except String TyName :=
  if op = .AND || op = .OR then .ok .anyT
  else .error ("Unknown logical operator: " ++ tokenTypeStr op)

/-- `areTypesCompatible`. -/
def areTypesCompatible (target source : TyName) : Bool :=
  if target = source then true
  else if target = .anyT || source = .anyT then true
  else if target = .undefinedT then true
  else false

/-- `SymbolInfo` (analyzer payload). -/
structure SymbolInfo where
  kind : VarKind
  type : TyName
  initialized : Bool
  line : Nat
  column : Nat
  deriving DecidableEq, Repr

/-- One analyzer scope: the insertion-ordered `symbols` map. -/
abbrev SFrame := List (String × SymbolInfo)

/-- The analyzer scope chain, innermost scope first (the last entry is the
global scope).  The analyzer only ever inserts into the innermost scope
and restores the saved chain when leaving a construct, so the parent
pointer structure of `Environment` is faithfully a stack. -/
abbrev SEnv := List SFrame

/-- `Map.get` on a frame. -/
def frameGet (f : SFrame) (name : String) : Option SymbolInfo :=
  (f.find? (fun p => p.1 = name)).map (·.2)

/-- `Map.set` on a frame (replace in place or append). -/
def frameSet (f : SFrame) (name : String) (info : SymbolInfo) : SFrame :=
  match f with
  | [] => [(name, info)]
  | p :: rest => if p.1 = name then (name, info) :: rest else p :: frameSet rest name info

/-- `Environment.define`: error if the name is already in the innermost
scope, else insert there. -/
def envDefine (env : SEnv) (name : String) (info : SymbolInfo) : Except String SEnv :=
  match env with
  | [] => .error "no scope"
  | f :: rest =>
    match frameGet f name with
    | some existing =>
      .error ("Variable '" ++ name ++ "' already declared in this scope at line " ++
        Nat.repr existing.line ++ ":" ++ Nat.repr existing.column)
    | none => .ok (frameSet f name info :: rest)

/-- `Environment.lookup`: innermost match along the chain. -/
def envLookup : SEnv → String → Option SymbolInfo
  | [], _ => none
  | f :: rest, name =>
    match frameGet f name with
    | some info => some info
    | none => envLookup rest name

/-- `Environment.assign`: find the innermost binding; a `const` binding is
a **thrown** error, a `let` binding is returned, an absent name yields
`none` (assignment to undeclared). -/
def envAssign : SEnv → String → Except String (Option SymbolInfo)
  | [], _ => .ok none
  | f :: rest, name =>
    match frameGet f name with
    | some info =>
      if info.kind = .vconst then
        .error ("Cannot assign to const variable '" ++ name ++ "' (declared at line " ++
          Nat.repr info.line ++ ":" ++ Nat.repr info.column ++ ")")
      else .ok (some info)
    | none => envAssign rest name

/-!
## Semantic analyzer (`src/semantic/analyzer.ts`)

The analyzer's mutable fields (`environment`, `loopDepth`, `errors`)
become the record `AState`.  Non-fatal problems are pushed onto `errors`;
a thrown exception (unknown node kind, or the uncaught throw out of
`Environment.assign`) is the `Except.error` channel, which `analyze`
catches at the top.  The fuel sentinel `"analyzer fuel exhausted"` models
only the embedding's recursion bound and is never reached by the programs
analyzed in this file.
-/

/-- Mutable analyzer state. -/
structure AState where
  env : SEnv
  loopDepth : Nat
  errors : List String
  deriving Repr

/-- Push a recoverable error message. -/
def pushErr (st : AState) (msg : String) : AState :=
  { st with errors := st.errors ++ [msg] }

/-- The parameter loop of `analyzeFunctionDeclaration` (duplicate
parameters are recoverable `already declared` errors). -/
def analyzeParams (params : List String) (st : AState) : AState :=
  match params with
  | [] => st
  | p :: rest =>
    let info : SymbolInfo := ⟨.vlet, .anyT, true, 0, 0⟩
    let st1 :=
      match envDefine st.env p info with
      | .ok env' => { st with env := env' }
      | .error msg => pushErr st msg
    analyzeParams rest st1

mutual

/-- `SemanticAnalyzer.analyzeExpression`: returns the inferred type or a
thrown (uncaught) exception. -/
def analyzeExpression (fuel : Nat) (e : Expr) (st : AState) :
    AState × Except String TyName :=
  match fuel with
  | 0 => (st, .error "analyzer fuel exhausted")
  | fuel + 1 =>
    match e with
    | .literal v _ => (st, .ok (inferLiteralType v))
    | .ident name =>
      match envLookup st.env name with
      | none => (pushErr st ("Variable '" ++ name ++ "' is not defined"), .ok .anyT)
      | some sym => (st, .ok sym.type)
    | .binary l op r =>
      match analyzeExpression fuel l st with
      | (st1, .error e) => (st1, .error e)
      | (st1, .ok lt) =>
        match analyzeExpression fuel r st1 with
        | (st2, .error e) => (st2, .error e)
        | (st2, .ok rt) =>
          match checkBinaryOperation lt op rt with
          | .ok t => (st2, .ok t)
          | .error msg => (pushErr st2 msg, .ok .anyT)
    | .unaryE op arg =>
      match analyzeExpression fuel arg st with
      | (st1, .error e) => (st1, .error e)
      | (st1, .ok t) =>
        match checkUnaryOperation op t with
        | .ok t2 => (st1, .ok t2)
        | .error msg => (pushErr st1 msg, .ok .anyT)
    | .logical l op r =>
      match analyzeExpression fuel l st with
      | (st1, .error e) => (st1, .error e)
      | (st1, .ok _) =>
        match analyzeExpression fuel r st1 with
        | (st2, .error e) => (st2, .error e)
        | (st2, .ok _) =>
          match checkLogicalOperation op with
          | .ok t => (st2, .ok t)
          | .error msg => (pushErr st2 msg, .ok .anyT)
    | .assignE name _ rhs =>
      match analyzeExpression fuel rhs st with
      | (st1, .error e) => (st1, .error e)
      | (st1, .ok valueType) =>
        match envAssign st1.env name with
        | .error e => (st1, .error e)
        | .ok none =>
          (pushErr st1 ("Cannot assign to undefined variable '" ++ name ++ "'"), .ok valueType)
        | .ok (some sym) =>
          if areTypesCompatible sym.type valueType then (st1, .ok valueType)
          else
            (pushErr st1 ("Type error: Cannot assign " ++ typeNameStr valueType ++
              " to variable '" ++ name ++ "' of type " ++ typeNameStr sym.type), .ok valueType)
    | .grouping g => analyzeExpression fuel g st
    | .call callee args =>
      match analyzeExpression fuel callee st with
      | (st1, .error e) => (st1, .error e)
      | (st1, .ok calleeType) =>
        let st2 :=
          if calleeType ≠ .functionT && calleeType ≠ .anyT then
            match callee with
            | .ident name =>
              pushErr st1 ("Cannot call '" ++ name ++ "' - it is not a function (type: " ++
                typeNameStr calleeType ++ ")")
            | _ =>
              pushErr st1 ("Cannot call expression - it is not a function (type: " ++
                typeNameStr calleeType ++ ")")
          else st1
        match analyzeExprList fuel args st2 with
        | (st3, .error e) => (st3, .error e)
        | (st3, .ok _) => (st3, .ok .anyT)

/-- The argument loop of `analyzeCallExpression`. -/
def analyzeExprList (fuel : Nat) (es : List Expr) (st : AState) :
    AState × Except String Unit :=
  match fuel with
  | 0 => (st, .error "analyzer fuel exhausted")
  | fuel + 1 =>
    match es with
    | [] => (st, .ok ())
    | e :: rest =>
      match analyzeExpression fuel e st with
      | (st1, .error msg) => (st1, .error msg)
      | (st1, .ok _) => analyzeExprList fuel rest st1

/-- `SemanticAnalyzer.analyzeStatement`. -/
def analyzeStatement (fuel : Nat) (s : Stmt) (st : AState) : AState × Option String :=
  match fuel with
  | 0 => (st, some "analyzer fuel exhausted")
  | fuel + 1 =>
    match s with
    | .varDecl kind name finit =>
      let r : AState × Except String TyName :=
        match finit with
        | none => (st, .ok .undefinedT)
        | some e => analyzeExpression fuel e st
      match r with
      | (st1, .error e) => (st1, some e)
      | (st1, .ok ty) =>
        let info : SymbolInfo :=
          ⟨kind, ty, finit.isSome, 0, 0⟩
        match envDefine st1.env name info with
        | .ok env' => ({ st1 with env := env' }, none)
        | .error msg => (pushErr st1 msg, none)
    | .funcDecl name params body =>
      let info : SymbolInfo := ⟨.vlet, .functionT, true, 0, 0⟩
      let st1 :=
        match envDefine st.env name info with
        | .ok env' => { st with env := env' }
        | .error msg => pushErr st msg
      let savedEnv := st1.env
      let st2 := { st1 with env := [] :: st1.env }
      let st3 := analyzeParams params st2
      match analyzeStmtList fuel body st3 with
      | (st4, r) => ({ st4 with env := savedEnv }, r)
    | .exprStmt e =>
      match analyzeExpression fuel e st with
      | (st1, .error msg) => (st1, some msg)
      | (st1, .ok _) => (st1, none)
    | .block body =>
      let savedEnv := st.env
      let st1 := { st with env := [] :: st.env }
      match analyzeStmtList fuel body st1 with
      | (st2, r) => ({ st2 with env := savedEnv }, r)
    | .ifS cond conseq alt =>
      match analyzeExpression fuel cond st with
      | (st1, .error msg) => (st1, some msg)
      | (st1, .ok _) =>
        match analyzeStatement fuel conseq st1 with
        | (st2, some msg) => (st2, some msg)
        | (st2, none) =>
          match alt with
          | none => (st2, none)
          | some a => analyzeStatement fuel a st2
    | .whileS cond body =>
      match analyzeExpression fuel cond st with
      | (st1, .error msg) => (st1, some msg)
      | (st1, .ok _) =>
        let st2 := { st1 with loopDepth := st1.loopDepth + 1 }
        match analyzeStatement fuel body st2 with
        | (st3, r) => ({ st3 with loopDepth := st3.loopDepth - 1 }, r)
    | .forS finit cond update body =>
      let savedEnv := st.env
      let st1 := { st with env := [] :: st.env }
      let r1 : AState × Option String :=
        match finit with
        | none => (st1, none)
        | some s => analyzeStatement fuel s st1
      match r1 with
      | (st2, some msg) => ({ st2 with env := savedEnv }, some msg)
      | (st2, none) =>
        let r2 : AState × Except String Unit :=
          match cond with
          | none => (st2, .ok ())
          | some c =>
            match analyzeExpression fuel c st2 with
            | (s', .error m) => (s', .error m)
            | (s', .ok _) => (s', .ok ())
        match r2 with
        | (st3, .error msg) => ({ st3 with env := savedEnv }, some msg)
        | (st3, .ok _) =>
          let r3 : AState × Except String Unit :=
            match update with
            | none => (st3, .ok ())
            | some u =>
              match analyzeExpression fuel u st3 with
              | (s', .error m) => (s', .error m)
              | (s', .ok _) => (s', .ok ())
          match r3 with
          | (st4, .error msg) => ({ st4 with env := savedEnv }, some msg)
          | (st4, .ok _) =>
            let st5 := { st4 with loopDepth := st4.loopDepth + 1 }
            match analyzeStatement fuel body st5 with
            | (st6, r) =>
              ({ st6 with loopDepth := st6.loopDepth - 1, env := savedEnv }, r)
    | .returnS arg =>
      match arg with
      | none => (st, none)
      | some e =>
        match analyzeExpression fuel e st with
        | (st1, .error msg) => (st1, some msg)
        | (st1, .ok _) => (st1, none)
    | .breakS =>
      if st.loopDepth = 0 then
        (pushErr st "'break' statement can only be used inside a loop", none)
      else (st, none)
    | .continueS =>
      if st.loopDepth = 0 then
        (pushErr st "'continue' statement can only be used inside a loop", none)
      else (st, none)

/-- The statement loop shared by `analyze`, blocks and function bodies: a
thrown exception aborts the remaining statements. -/
def analyzeStmtList (fuel : Nat) (ss : List Stmt) (st : AState) : AState × Option String :=
  match fuel with
  | 0 => (st, some "analyzer fuel exhausted")
  | fuel + 1 =>
    match ss with
    | [] => (st, none)
    | s :: rest =>
      match analyzeStatement fuel s st with
      | (st1, some msg) => (st1, some msg)
      | (st1, none) => analyzeStmtList fuel rest st1

end

/-- `AnalysisResult`. -/
structure AnalysisResult where
  success : Bool
  errors : List String
  deriving DecidableEq, Repr

/-- `SemanticAnalyzer.analyze`: walk the statements, catching a thrown
exception at the top by pushing its message and reporting failure. -/
def analyze (fuel : Nat) (prog : Program) : AnalysisResult :=
  let st0 : AState := ⟨[[]], 0, []⟩
  match analyzeStmtList fuel prog st0 with
  | (st, none) => ⟨st.errors.isEmpty, st.errors⟩
  | (st, some msg) => ⟨false, st.errors ++ [msg]⟩

/-!
## Runtime environment (`src/interpreter/runtime-env.ts`)

`RuntimeEnvironment` objects form a parent-linked graph of mutable `Map`s.
The embedding is an arena: `frames` is the append-only list of every
environment object ever created (index = identity), `current` is the
`this.environment` pointer of the interpreter.  Restoring a saved
environment restores the index while keeping all mutations — exactly the
semantics of saving and restoring the object reference. -/

/-- One `RuntimeEnvironment` object: its `variables` map (insertion
ordered) and its `parent` reference. -/
structure RFrame where
  vars : List (String × RTVal)
  parent : Option Nat
  deriving DecidableEq, Repr

/-- The arena of every environment created so far, plus the current
environment pointer. -/
structure REnv where
  frames : List RFrame
  current : Nat
  deriving DecidableEq, Repr

/-- The interpreter's initial global environment. -/
def initialREnv : REnv := ⟨[⟨[], none⟩], 0⟩

/-- `RuntimeEnvironment.createChild` followed by
`this.environment = child`. -/
def pushChild (env : REnv) : REnv :=
  ⟨env.frames ++ [⟨[], some env.current⟩], env.frames.length⟩

/-- Dereference a frame index. -/
def getFrame (env : REnv) (i : Nat) : RFrame := env.frames.getD i ⟨[], none⟩

/-- `Map.get` on a frame's variables. -/
def rvarsGet (vars : List (String × RTVal)) (name : String) : Option RTVal :=
  (vars.find? (fun p => p.1 = name)).map (·.2)

/-- `Map.set` on a frame's variables. -/
def rvarsSet (vars : List (String × RTVal)) (name : String) (v : RTVal) :
    List (String × RTVal) :=
  match vars with
  | [] => [(name, v)]
  | p :: rest => if p.1 = name then (name, v) :: rest else p :: rvarsSet rest name v

/-- Overwrite the variables of frame `i`. -/
def setFrameVars (env : REnv) (i : Nat) (vars : List (String × RTVal)) : REnv :=
  ⟨env.frames.set i { getFrame env i with vars := vars }, env.current⟩

/-- `RuntimeEnvironment.define` on the current environment: unconditional
`Map.set` — no duplicate check, no kind metadata. -/
def rtDefine (env : REnv) (name : String) (v : RTVal) : REnv :=
  setFrameVars env env.current (rvarsSet (getFrame env env.current).vars name v)

/-- The parent-chain walk of `RuntimeEnvironment.lookup` (the fuel bounds
the chain length; `frames.length` always suffices because every parent
index is smaller than its child's). -/
def rtLookupAux : Nat → REnv → Nat → String → Option RTVal
  | 0, _, _, _ => none
  | fuel + 1, env, i, name =>
    match rvarsGet (getFrame env i).vars name with
    | some v => some v
    | none =>
      match (getFrame env i).parent with
      | some p => rtLookupAux fuel env p name
      | none => none

/-- `RuntimeEnvironment.lookup` from the current environment. -/
def rtLookup (env : REnv) (name : String) : Option RTVal :=
  rtLookupAux env.frames.length env env.current name

/-- The parent-chain walk of `RuntimeEnvironment.assign`: overwrite the
variable in the first frame of the chain that has it (`some` updated
arena = `true`), or `none` (= `false`) when no frame has it. -/
def rtAssignAux : Nat → REnv → Nat → String → RTVal → Option REnv
  | 0, _, _, _, _ => none
  | fuel + 1, env, i, name, v =>
    if (rvarsGet (getFrame env i).vars name).isSome then
      some (setFrameVars env i (rvarsSet (getFrame env i).vars name v))
    else
      match (getFrame env i).parent with
      | some p => rtAssignAux fuel env p name v
      | none => none

/-- `RuntimeEnvironment.assign` from the current environment. -/
def rtAssign (env : REnv) (name : String) (v : RTVal) : Option REnv :=
  rtAssignAux env.frames.length env env.current name v

/-!
## Interpreter (`src/interpreter/` plus the control-flow exceptions)
-/

/-- The exceptions that can cross statement boundaries:
`BreakException`, `ContinueException`, `ReturnException`, an ordinary
runtime `Error`, and the embedding's fuel sentinel (modelling a
non-terminating loop, never reached by the programs below). -/
inductive Exc where
  | brk
  | cont
  | ret (v : RTVal)
  | err (msg : String)
  | fuelOut
  deriving DecidableEq, Repr

/-- The interpreter's mutable state: `this.environment` and
`this.lastValue`. -/
structure IState where
  env : REnv
  lastValue : RTVal
  deriving DecidableEq, Repr

/-- The operator dispatch of `Interpreter.evaluateBinaryExpression`,
applied to two already-evaluated values. -/
def applyBinaryOp (op : TokenType) (left right : RTVal) : Except String RTVal :=
  if op = .PLUS then
    if (match left with | .str _ => true | _ => false) ||
       (match right with | .str _ => true | _ => false) then
      .ok (.str (toStringV left ++ toStringV right))
    else .ok (.num (jsAdd (toNumberV left) (toNumberV right)))
  else if op = .MINUS then .ok (.num (jsSub (toNumberV left) (toNumberV right)))
  else if op = .STAR then .ok (.num (jsMul (toNumberV left) (toNumberV right)))
  else if op = .SLASH then
    let rightNum := toNumberV right
    if jsStrictEq rightNum (.num 0 1) then .ok (.num .posInf)
    else .ok (.num (jsDiv (toNumberV left) rightNum))
  else if op = .PERCENT then .ok (.num (jsMod (toNumberV left) (toNumberV right)))
  else if op = .LESS then .ok (.bool (jsLt (toNumberV left) (toNumberV right)))
  else if op = .LESS_EQUAL then .ok (.bool (jsLe (toNumberV left) (toNumberV right)))
  else if op = .GREATER then .ok (.bool (jsLt (toNumberV right) (toNumberV left)))
  else if op = .GREATER_EQUAL then .ok (.bool (jsLe (toNumberV right) (toNumberV left)))
  else if op = .EQUAL_EQUAL then .ok (.bool (areValuesEqual left right))
  else if op = .BANG_EQUAL then .ok (.bool (!areValuesEqual left right))
  else .error ("Unknown binary operator: " ++ tokenTypeStr op)

/-- `Interpreter.evaluateExpression` (expressions never contain
statements, so this is structural; a `CallExpression` throws before
looking at callee or arguments). -/
def evalExpr : Expr → IState → IState × Except Exc RTVal
  | .literal v _, st =>
    match v with
    | .numV n => (st, .ok (.num n))
    | .strV s => (st, .ok (.str s))
    | .boolV b => (st, .ok (.bool b))
    | .nullV => (st, .ok .null)
  | .ident name, st =>
    match rtLookup st.env name with
    | some v => (st, .ok v)
    | none => (st, .error (.err ("Runtime Error: Variable '" ++ name ++ "' is not defined")))
  | .binary l op r, st =>
    match evalExpr l st with
    | (st1, .error e) => (st1, .error e)
    | (st1, .ok lv) =>
      match evalExpr r st1 with
      | (st2, .error e) => (st2, .error e)
      | (st2, .ok rv) =>
        match applyBinaryOp op lv rv with
        | .ok v => (st2, .ok v)
        | .error msg => (st2, .error (.err msg))
  | .unaryE op arg, st =>
    match evalExpr arg st with
    | (st1, .error e) => (st1, .error e)
    | (st1, .ok v) =>
      if op = .MINUS then (st1, .ok (.num (jsNeg (toNumberV v))))
      else if op = .BANG then (st1, .ok (.bool (!toBooleanV v)))
      else (st1, .error (.err ("Unknown unary operator: " ++ tokenTypeStr op)))
  | .logical l op r, st =>
    match evalExpr l st with
    | (st1, .error e) => (st1, .error e)
    | (st1, .ok lv) =>
      if op = .AND then
        if !toBooleanV lv then (st1, .ok lv) else evalExpr r st1
      else if op = .OR then
        if toBooleanV lv then (st1, .ok lv) else evalExpr r st1
      else (st1, .error (.err ("Unknown logical operator: " ++ tokenTypeStr op)))
  | .assignE name _ rhs, st =>
    match evalExpr rhs st with
    | (st1, .error e) => (st1, .error e)
    | (st1, .ok v) =>
      match rtAssign st1.env name v with
      | some env' => ({ st1 with env := env' }, .ok v)
      | none =>
        (st1, .error (.err ("Runtime Error: Cannot assign to undefined variable '" ++
          name ++ "'")))
  | .grouping g, st => evalExpr g st
  | .call _ _, st => (st, .error (.err "Function calls not yet implemented"))

/-- Call descriptors for statement execution: a single statement, a
statement list (`execute` / block bodies), and the two loop bodies.  As
with the parser, the mutually recursive TypeScript methods become one
structurally fuel-recursive function `execGo`, with the original names as
wrappers. -/
inductive ERun where
  | stmtR (s : Stmt)
  | listR (ss : List Stmt)
  | whileR (cond : Expr) (body : Stmt)
  | forR (cond : Option Expr) (update : Option Expr) (body : Stmt)

/-- Statement execution.  The cases are the bodies of
`executeStatement`, the statement loop of `execute`/
`executeBlockStatement`, and the `while (true)` loops of
`executeWhileStatement` and `executeForStatement`:

* a `block` creates one child scope, runs its body, and restores the
  previous scope pointer on **every** exit path (the `try/finally`);
* a `for` statement creates one child scope around init+loop and likewise
  always restores;
* the `while` loop intercepts `brk` (ending the loop) and `cont`
  (re-testing the condition), re-propagating anything else;
* the `for` loop tests the optional condition, runs the body, and on
  `brk` ends the loop *without* running the update, while on `cont` — as
  after normal completion — it runs the update clause and then re-tests
  the condition. -/
def execGo : Nat → ERun → IState → IState × Option Exc
  | 0, _, st => (st, some .fuelOut)
  | fuel + 1, tag, st =>
    match tag with
    | .stmtR s =>
      match s with
      | .varDecl _ name finit =>
        let r : IState × Except Exc RTVal :=
          match finit with
          | some e => evalExpr e st
          | none => (st, .ok .undef)
        match r with
        | (st1, .error e) => (st1, some e)
        | (st1, .ok v) => ({ st1 with env := rtDefine st1.env name v }, none)
      | .exprStmt e =>
        match evalExpr e st with
        | (st1, .error ex) => (st1, some ex)
        | (st1, .ok v) => ({ st1 with lastValue := v }, none)
      | .block body =>
        let prev := st.env.current
        let stC := { st with env := pushChild st.env }
        match execGo fuel (.listR body) stC with
        | (st1, r) => ({ st1 with env := { st1.env with current := prev } }, r)
      | .ifS cond conseq alt =>
        match evalExpr cond st with
        | (st1, .error e) => (st1, some e)
        | (st1, .ok v) =>
          if toBooleanV v then execGo fuel (.stmtR conseq) st1
          else
            match alt with
            | some a => execGo fuel (.stmtR a) st1
            | none => (st1, none)
      | .whileS cond body => execGo fuel (.whileR cond body) st
      | .forS finit cond update body =>
        let prev := st.env.current
        let stC := { st with env := pushChild st.env }
        let r1 : IState × Option Exc :=
          match finit with
          | some s0 => execGo fuel (.stmtR s0) stC
          | none => (stC, none)
        match r1 with
        | (st1, some e) => ({ st1 with env := { st1.env with current := prev } }, some e)
        | (st1, none) =>
          match execGo fuel (.forR cond update body) st1 with
          | (st2, r) => ({ st2 with env := { st2.env with current := prev } }, r)
      | .funcDecl _ _ _ =>
        (st, some (.err "Unknown statement type: FunctionDeclaration"))
      | .returnS arg =>
        match arg with
        | some e =>
          match evalExpr e st with
          | (st1, .error ex) => (st1, some ex)
          | (st1, .ok v) => (st1, some (.ret v))
        | none => (st, some (.ret .undef))
      | .breakS => (st, some .brk)
      | .continueS => (st, some .cont)
    | .listR ss =>
      match ss with
      | [] => (st, none)
      | s :: rest =>
        match execGo fuel (.stmtR s) st with
        | (st1, some e) => (st1, some e)
        | (st1, none) => execGo fuel (.listR rest) st1
    | .whileR cond body =>
      match evalExpr cond st with
      | (st1, .error e) => (st1, some e)
      | (st1, .ok v) =>
        if !toBooleanV v then (st1, none)
        else
          match execGo fuel (.stmtR body) st1 with
          | (st2, some .brk) => (st2, none)
          | (st2, some .cont) => execGo fuel (.whileR cond body) st2
          | (st2, none) => execGo fuel (.whileR cond body) st2
          | (st2, some e) => (st2, some e)
    | .forR cond update body =>
      let condRes : IState × Except Exc Bool :=
        match cond with
        | none => (st, .ok true)
        | some c =>
          match evalExpr c st with
          | (st1, .ok v) => (st1, .ok (toBooleanV v))
          | (st1, .error e) => (st1, .error e)
      match condRes with
      | (st1, .error e) => (st1, some e)
      | (st1, .ok false) => (st1, none)
      | (st1, .ok true) =>
        match execGo fuel (.stmtR body) st1 with
        | (st2, some .brk) => (st2, none)
        | (st2, some .cont) =>
          match update with
          | none => execGo fuel (.forR cond update body) st2
          | some u =>
            match evalExpr u st2 with
            | (st3, .ok _) => execGo fuel (.forR cond update body) st3
            | (st3, .error e) => (st3, some e)
        | (st2, none) =>
          match update with
          | none => execGo fuel (.forR cond update body) st2
          | some u =>
            match evalExpr u st2 with
            | (st3, .ok _) => execGo fuel (.forR cond update body) st3
            | (st3, .error e) => (st3, some e)
        | (st2, some e) => (st2, some e)

/-- `Interpreter.executeStatement`. -/
def execStmt (fuel : Nat) (s : Stmt) (st : IState) : IState × Option Exc :=
  execGo fuel (.stmtR s) st

/-- The statement sequencing shared by `execute` and block bodies: an
exception aborts the remaining statements. -/
def execStmtList (fuel : Nat) (ss : List Stmt) (st : IState) : IState × Option Exc :=
  execGo fuel (.listR ss) st

/-- The `while (true)` loop of `executeWhileStatement`. -/
def whileLoop (fuel : Nat) (cond : Expr) (body : Stmt) (st : IState) : IState × Option Exc :=
  execGo fuel (.whileR cond body) st

/-- The `while (true)` loop of `executeForStatement`. -/
def forLoop (fuel : Nat) (cond update : Option Expr) (body : Stmt) (st : IState) :
    IState × Option Exc :=
  execGo fuel (.forR cond update body) st

/-- The shared continuation after a `for` body completes normally or via
`continue`: run the update clause (when present), then re-enter the loop,
which re-tests the condition. -/
def forAfterBody (fuel : Nat) (cond update : Option Expr) (body : Stmt) (st : IState) :
    IState × Option Exc :=
  match update with
  | none => forLoop fuel cond update body st
  | some u =>
    match evalExpr u st with
    | (st3, .ok _) => forLoop fuel cond update body st3
    | (st3, .error e) => (st3, some e)

/-- `Interpreter.execute` on a fresh interpreter: run the statements
against a fresh global scope and return the last expression-statement's
value (exceptions, including runtime errors, propagate to the caller). -/
def interpret (fuel : Nat) (prog : Program) : IState × Except Exc RTVal :=
  let st0 : IState := ⟨initialREnv, .undef⟩
  match execStmtList fuel prog st0 with
  | (st, none) => (st, .ok st.lastValue)
  | (st, some e) => (st, .error e)

/-!
## Predicates and fixtures used by the claims
-/

/-- The four statement-delimiter characters the parser's grammar needs
but the scanner cannot tokenize: `;`, `{`, `}`, `,`. -/
def badChar (c : Char) : Bool := c = ';' || c = '\x7b' || c = '\x7d' || c = ','

/-- A character the scanner consumes without effect on string-mode or
delimiter status: neither a quote nor one of the four delimiters. -/
def plainCh (c : Char) : Bool := !(c = '"' || c = '\'') && !badChar c

/-- The scanner's whitespace characters. -/
def isWsChar (c : Char) : Bool := c = ' ' || c = '\t' || c = '\r' || c = '\n'

/-- State machine deciding whether a delimiter character occurs outside a
string literal: `none` = outside any string, `some q` = inside a string
opened by quote `q` (the scanner processes strings with no escape
sequences, so a quote outside a string always opens one and the next same
quote closes it). -/
def hasBareBadAux : Option Char → List Char → Bool
  | _, [] => false
  | some q, c :: cs => if c = q then hasBareBadAux none cs else hasBareBadAux (some q) cs
  | none, c :: cs =>
    if c = '"' || c = '\'' then hasBareBadAux (some c) cs
    else if badChar c then true
    else hasBareBadAux none cs

/-- The source string contains `;`, `{`, `}` or `,` outside of a string
literal. -/
def hasBareBad (cs : List Char) : Bool := hasBareBadAux none cs

/-- Is the value a number? (`isNumber` from `values.ts`.) -/
def isNumV : RTVal → Bool
  | .num _ => true
  | _ => false

/-- Is the value `null`? -/
def isNullV : RTVal → Bool
  | .null => true
  | _ => false

/-- Is the value `undefined`? -/
def isUndefV : RTVal → Bool
  | .undef => true
  | _ => false

/-- Same runtime type tag? -/
def sameTypeV : RTVal → RTVal → Bool
  | .num _, .num _ => true
  | .str _, .str _ => true
  | .bool _, .bool _ => true
  | .null, .null => true
  | .undef, .undef => true
  | _, _ => false

/-- Mathematical equality of same-type payloads (`NaN` payload equals
`NaN` payload). -/
def payloadEqV : RTVal → RTVal → Bool
  | .num a, .num b => payloadEqNum a b
  | .str a, .str b => a = b
  | .bool a, .bool b => a = b
  | .null, .null => true
  | .undef, .undef => true
  | _, _ => false

/-- The spec's description of `==` taken literally (for claim C7):
same-type values compare by payload equality, `null`/`undefined` are
mutually equal, a pair with exactly one number side is compared by
mathematical equality after `toNumber` coercion, all other mixed pairs
are unequal. -/
def specValuesEqual (l r : RTVal) : Bool :=
  if sameTypeV l r then payloadEqV l r
  else if (isNullV l && isUndefV r) || (isUndefV l && isNullV r) then true
  else if isNumV l != isNumV r then payloadEqNum (toNumberV l) (toNumberV r)
  else false

/-- The test-harness pipeline `scan` then `parseExpression` used by the
repository's expression-parsing tests. -/
def scanParseExpression (s : String) : Except String Expr :=
  match scanTokens s with
  | .error e => .error e
  | .ok toks => (·.1) <$> parseExpression (s.length + 10) toks 0

/-- Shorthand for an integer number literal node. -/
def nlit (n : Int) (raw : String) : Expr := .literal (.numV (.num n 1)) raw

/-- Fixture for C2: `const y = 20; y = 25; break;` — the stray `break`
after the const assignment. -/
def c2prog : Program :=
  [.varDecl .vconst "y" (some (nlit 20 "20")),
   .exprStmt (.assignE "y" .EQUAL (nlit 25 "25")),
   .breakS]

/-- Fixture for C3: the token sequence of `foo()` — an identifier
immediately followed by `(`. -/
def c3toks : List Token :=
  [⟨.IDENTIFIER, "foo", 0, 3⟩, ⟨.LPAREN, "(", 0, 4⟩, ⟨.RPAREN, ")", 0, 5⟩, ⟨.EOF, "", 0, 5⟩]

/-- Fixture for C3: the token sequence of the statement `foo();`. -/
def c3toksStmt : List Token :=
  [⟨.IDENTIFIER, "foo", 0, 3⟩, ⟨.LPAREN, "(", 0, 4⟩, ⟨.RPAREN, ")", 0, 5⟩,
   ⟨.SEMICOLON, ";", 0, 6⟩, ⟨.EOF, "", 0, 6⟩]

/-- Fixture for C10: `const x = 5; x = 10;`. -/
def c10assign : Program :=
  [.varDecl .vconst "x" (some (nlit 5 "5")),
   .exprStmt (.assignE "x" .EQUAL (nlit 10 "10"))]

/-- Fixture for C10: `const x = 5; x = 10; x;`. -/
def c10prog : Program := c10assign ++ [.exprStmt (.ident "x")]

/-- Fixture for C4: `let s = 0; for (let i = 0; i < 5; i = i + 1) {
if (i == 2) continue; s = s + i; } s;` — terminates with `s = 8` only
because `continue` still runs the update clause. -/
def contProg : Program :=
  [.varDecl .vlet "s" (some (nlit 0 "0")),
   .forS (some (.varDecl .vlet "i" (some (nlit 0 "0"))))
     (some (.binary (.ident "i") .LESS (nlit 5 "5")))
     (some (.assignE "i" .EQUAL (.binary (.ident "i") .PLUS (nlit 1 "1"))))
     (.block [.ifS (.binary (.ident "i") .EQUAL_EQUAL (nlit 2 "2")) .continueS none,
              .exprStmt (.assignE "s" .EQUAL (.binary (.ident "s") .PLUS (.ident "i")))]),
   .exprStmt (.ident "s")]

/-- Fixture for C4: sum `0..9` with `break` at `i == 5`, yielding the
partial sum `10` because `break` skips the rest of the body and the
update clause and ends the loop. -/
def brkProg : Program :=
  [.varDecl .vlet "s" (some (nlit 0 "0")),
   .forS (some (.varDecl .vlet "i" (some (nlit 0 "0"))))
     (some (.binary (.ident "i") .LESS (nlit 10 "10")))
     (some (.assignE "i" .EQUAL (.binary (.ident "i") .PLUS (nlit 1 "1"))))
     (.block [.ifS (.binary (.ident "i") .EQUAL_EQUAL (nlit 5 "5")) .breakS none,
              .exprStmt (.assignE "s" .EQUAL (.binary (.ident "s") .PLUS (.ident "i")))]),
   .exprStmt (.ident "s")]

/-!
## Theorems

Helper lemmas first, then one theorem per claim (with a witness or
counterexample where required).
-/

theorem checkT_true_iff (toks : List Token) (i : Nat) (ty : TokenType) :
    checkT toks i ty = true ↔ (isAtEndT toks i = false ∧ (peekT toks i).type = ty) := by
  unfold checkT
  by_cases h : isAtEndT toks i = true
  · simp [h]
  · simp at h
    simp [h]

/-- C5: the parser implements the stated precedence and associativity:
`2 + 3 * 4` parses with root `+` and right child `*`; `(2+3)*4` parses
with root `*` and a grouping of `+` as left child; `1 + 2 + 3` nests left
as `(1+2)+3`; `x = y = 5` nests right as `x = (y = 5)`.  (`parse` here is
the test-harness pipeline `scan` followed by `Parser.parseExpression`, as
in the repository's expression-parsing tests.) -/
theorem C5_precedence_and_associativity :
    scanParseExpression "2 + 3 * 4" =
      .ok (.binary (nlit 2 "2") .PLUS (.binary (nlit 3 "3") .STAR (nlit 4 "4"))) ∧
    scanParseExpression "(2 + 3) * 4" =
      .ok (.binary (.grouping (.binary (nlit 2 "2") .PLUS (nlit 3 "3"))) .STAR (nlit 4 "4")) ∧
    scanParseExpression "1 + 2 + 3" =
      .ok (.binary (.binary (nlit 1 "1") .PLUS (nlit 2 "2")) .PLUS (nlit 3 "3")) ∧
    scanParseExpression "x = y = 5" =
      .ok (.assignE "x" .EQUAL (.assignE "y" .EQUAL (nlit 5 "5"))) :=
  ⟨rfl, rfl, rfl, rfl⟩

/-- C2: the claim says the analyzer collects every detectable error in
one pass and keeps analyzing after reporting an assignment-to-const
error.  The code does not: `Environment.assign` **throws** on a const
binding, `analyzeAssignmentExpression` does not catch, and the exception
reaches `analyze`'s top-level catch, which stops the pass.  On
`const y = 20; y = 25; break;` the result contains only the const error —
the stray-`break` error (which the second conjunct shows the analyzer
does report when it reaches such a statement) is never collected. -/
theorem C2_const_assignment_aborts_analysis :
    analyze 100 c2prog =
      ⟨false, ["Cannot assign to const variable 'y' (declared at line 0:0)"]⟩ ∧
    analyze 100 [Stmt.breakS] =
      ⟨false, ["'break' statement can only be used inside a loop"]⟩ :=
  ⟨rfl, rfl⟩

/-- C3: the claim (and the repository's parser tests) say an identifier
followed by `(` parses as a `CallExpression`.  The parser has no call
production: `parsePrimary` returns the bare `Identifier` without looking
at the next token (third conjunct, for every token sequence), so on the
tokens of `foo()` the expression parse stops after `foo` with the `(`
unconsumed (first conjunct), and parsing the statement `foo();` fails
with `Expected ';' after expression` at the `(` (second conjunct). -/
theorem C3_no_call_expression_parsed :
    parseExpression 20 c3toks 0 = .ok (.ident "foo", 1) ∧
    parseProgram 30 c3toksStmt =
      .error "Line 0:4 - Error at '(': Expected ';' after expression" ∧
    (∀ fuel toks i, checkT toks i .IDENTIFIER = true →
      parsePrimary (fuel + 1) toks i = .ok (.ident (peekT toks i).value, i + 1)) := by
  refine ⟨rfl, rfl, ?_⟩
  intro fuel toks i h
  rw [checkT_true_iff] at h
  simp [parsePrimary, parseExprGo, checkT, h.1, h.2]

/-- Witness for the universal part of C3 at the tokens of `foo()`. -/
theorem C3_no_call_expression_parsed_witness :
    parsePrimary 6 c3toks 0 = .ok (.ident "foo", 1) :=
  C3_no_call_expression_parsed.2.2 5 c3toks 0 (by decide)

/-- C6: for every pair of runtime values, a division whose right operand
converts to the number `0` (the interpreter's own `=== 0` test on the
`toNumber` image) evaluates to positive infinity, with no exception and
no divide-by-zero error, regardless of the left operand. -/
theorem C6_division_by_zero_yields_infinity :
    ∀ l r : RTVal, jsStrictEq (toNumberV r) (.num 0 1) = true →
      applyBinaryOp .SLASH l r = .ok (.num .posInf) := by
  intro l r h
  simp [applyBinaryOp, h]

/-- Witness for C6: `"abc" / false` (the divisor `false` converts to `0`)
yields `Infinity`. -/
theorem C6_division_by_zero_yields_infinity_witness :
    applyBinaryOp .SLASH (.str "abc") (.bool false) = .ok (.num .posInf) :=
  C6_division_by_zero_yields_infinity (.str "abc") (.bool false) (by decide)

/-- C10: the interpreter never enforces `const`: the runtime environment
stores plain values with no declared-kind metadata and its `assign`
overwrites the first binding found in the chain, so
`const x = 5; x = 10;` interprets successfully with the assignment
yielding `10` (first conjunct), reading `x` back gives the mutated value
`10` (second conjunct), while the semantic analyzer reports the same
program as a const-assignment error (third conjunct). -/
theorem C10_interpreter_ignores_const :
    (interpret 100 c10assign).2 = .ok (.num (.num 10 1)) ∧
    (interpret 100 c10prog).2 = .ok (.num (.num 10 1)) ∧
    analyze 100 c10prog =
      ⟨false, ["Cannot assign to const variable 'x' (declared at line 0:0)"]⟩ :=
  ⟨rfl, rfl, rfl⟩

/-- C4: in the `for`-statement loop, a `continue` signal from the body
still runs the update clause before the condition is re-tested (the loop
proceeds exactly as after normal body completion, i.e. as
`forAfterBody`: update first, then re-entering the loop whose first step
is the condition test), while a `break` signal terminates the loop
immediately, skipping both the rest of the body and the update clause.
The two concrete programs check the end-to-end behaviour: summing `0..4`
while skipping `i = 2` with `continue` gives `8` (it terminates at all
only because `continue` still runs `i = i + 1`), and `break` at `i == 5`
in a `0..9` loop leaves the partial sum `10`. -/
theorem C4_for_loop_continue_and_break :
    (∀ (fuel : Nat) (c : Expr) (u : Option Expr) (body : Stmt) (st st1 st2 : IState) (v : RTVal),
       evalExpr c st = (st1, .ok v) → toBooleanV v = true →
       execStmt fuel body st1 = (st2, some .cont) →
       forLoop (fuel + 1) (some c) u body st = forAfterBody fuel (some c) u body st2) ∧
    (∀ (fuel : Nat) (c : Expr) (u : Option Expr) (body : Stmt) (st st1 st2 : IState) (v : RTVal),
       evalExpr c st = (st1, .ok v) → toBooleanV v = true →
       execStmt fuel body st1 = (st2, some .brk) →
       forLoop (fuel + 1) (some c) u body st = (st2, none)) ∧
    (interpret 300 contProg).2 = .ok (.num (.num 8 1)) ∧
    (interpret 300 brkProg).2 = .ok (.num (.num 10 1)) := by
  refine ⟨?_, ?_, rfl, rfl⟩
  · intro fuel c u body st st1 st2 v hc hv hb
    unfold forLoop forAfterBody execStmt at *
    simp only [execGo, hc, hv, hb]
    rfl
  · intro fuel c u body st st1 st2 v hc hv hb
    unfold forLoop execStmt at *
    simp only [execGo, hc, hv, hb]

/-- Witness for C4 at a concrete loop state: with a `true` condition and
a body that is literally `continue`, one loop step is `forAfterBody`;
with a body that is literally `break`, one loop step ends the loop. -/
theorem C4_for_loop_continue_and_break_witness :
    forLoop 2 (some (.literal (.boolV true) "true")) none .continueS ⟨initialREnv, .undef⟩ =
      forAfterBody 1 (some (.literal (.boolV true) "true")) none .continueS
        ⟨initialREnv, .undef⟩ ∧
    forLoop 2 (some (.literal (.boolV true) "true")) none .breakS ⟨initialREnv, .undef⟩ =
      (⟨initialREnv, .undef⟩, none) :=
  ⟨C4_for_loop_continue_and_break.1 1 (.literal (.boolV true) "true") none .continueS
      ⟨initialREnv, .undef⟩ ⟨initialREnv, .undef⟩ ⟨initialREnv, .undef⟩ (.bool true) rfl rfl rfl,
   C4_for_loop_continue_and_break.2.1 1 (.literal (.boolV true) "true") none .breakS
      ⟨initialREnv, .undef⟩ ⟨initialREnv, .undef⟩ ⟨initialREnv, .undef⟩ (.bool true) rfl rfl rfl⟩

/-- C7 counterexample: the claim says `==` is true for same-type values
exactly when their payloads are equal.  Two number values both holding
`NaN` have equal payloads — the spec-literal reading `specValuesEqual`
says they are equal — but the code compares with JS `===`, under which
`NaN` is unequal to itself, so `areValuesEqual` returns `false`. -/
theorem C7_equality_counterexample :
    specValuesEqual (.num .nan) (.num .nan) = true ∧
    areValuesEqual (.num .nan) (.num .nan) = false := by decide

/-- C7 as amended: `==` is true for same-type values exactly when their
payloads are equal **and** the value is not number `NaN` (`NaN` compares
unequal to everything, itself included); `null` and `undefined` compare
equal to each other; when exactly one side is a number both sides are
coerced with `toNumber` and compared with the same strict (`NaN`-unequal)
semantics; and all other mixed-type pairs compare unequal. -/
theorem C7_equality_semantics :
    (∀ l r : RTVal, sameTypeV l r = true →
       areValuesEqual l r = (payloadEqV l r && !(payloadEqV l (.num .nan)))) ∧
    (areValuesEqual .null .undef = true ∧ areValuesEqual .undef .null = true) ∧
    (∀ l r : RTVal, (isNumV l != isNumV r) = true →
       areValuesEqual l r = jsStrictEq (toNumberV l) (toNumberV r)) ∧
    (∀ l r : RTVal, sameTypeV l r = false → (isNullV l && isUndefV r) = false →
       (isUndefV l && isNullV r) = false → isNumV l = false → isNumV r = false →
       areValuesEqual l r = false) := by
  refine ⟨?_, ⟨rfl, rfl⟩, ?_, ?_⟩
  · intro l r h
    cases l <;> cases r <;>
      simp_all [sameTypeV, areValuesEqual, payloadEqV, payloadEqNum, jsStrictEq]
    · rename_i a b
      cases a <;> cases b <;> simp [jsStrictEq, payloadEqNum]
  · intro l r h
    cases l <;> cases r <;> simp_all [isNumV, areValuesEqual]
  · intro l r h1 h2 h3 h4 h5
    cases l <;> cases r <;> simp_all [sameTypeV, isNullV, isUndefV, isNumV, areValuesEqual]

/-- Witness for C7: same-type booleans compare by payload (`true == true`
is true), and a number/string pair is compared after numeric coercion
(`5 == "5"` is true). -/
theorem C7_equality_semantics_witness :
    areValuesEqual (.bool true) (.bool true) =
      (payloadEqV (.bool true) (.bool true) && !(payloadEqV (.bool true) (.num .nan))) ∧
    areValuesEqual (.num (.num 5 1)) (.str "5") =
      jsStrictEq (toNumberV (.num (.num 5 1))) (toNumberV (.str "5")) :=
  ⟨C7_equality_semantics.1 (.bool true) (.bool true) (by decide),
   C7_equality_semantics.2.2.1 (.num (.num 5 1)) (.str "5") (by decide)⟩

/-- C8: executing a block statement or a for statement restores the
previous scope pointer on **every** exit path — the first two conjuncts
hold for every outcome of the inner execution: normal completion, a
propagating break/continue/return signal, a runtime error, and even the
fuel sentinel — so the current-scope pointer after execution equals its
value before.  The third conjunct is the child-scope discipline: entering
the construct creates exactly one fresh scope whose parent is the
previous current scope. -/
theorem C8_scope_restored_on_every_exit :
    (∀ (fuel : Nat) (body : List Stmt) (st : IState),
       ((execStmt fuel (.block body) st).1).env.current = st.env.current) ∧
    (∀ (fuel : Nat) (finit : Option Stmt) (cond update : Option Expr) (body : Stmt)
       (st : IState),
       ((execStmt fuel (.forS finit cond update body) st).1).env.current = st.env.current) ∧
    (∀ env : REnv, (pushChild env).frames.length = env.frames.length + 1 ∧
       (pushChild env).current = env.frames.length ∧
       getFrame (pushChild env) (pushChild env).current = ⟨[], some env.current⟩) := by
  refine ⟨?_, ?_, ?_⟩
  · intro fuel body st
    cases fuel with
    | zero => rfl
    | succ fuel => rfl
  · intro fuel finit cond update body st
    cases fuel with
    | zero => rfl
    | succ fuel =>
      show (execGo (fuel + 1) (.stmtR (.forS finit cond update body)) st).1.env.current = _
      simp only [execGo]
      cases finit with
      | none =>
        rcases h : execGo fuel (.forR cond update body)
            { st with env := pushChild st.env } with ⟨st2, r⟩
        simp [h]
      | some s0 =>
        rcases h1 : execGo fuel (.stmtR s0) { st with env := pushChild st.env } with ⟨st1, r1⟩
        cases r1 with
        | some e => simp [h1]
        | none =>
          rcases h2 : execGo fuel (.forR cond update body) st1 with ⟨st2, r⟩
          simp [h1, h2]
  · intro env
    refine ⟨by simp [pushChild], rfl, ?_⟩
    simp [getFrame, pushChild]

theorem takeDigits_append (ds rest : List Char) (h : ∀ c ∈ ds, isDigitCh c = true) :
    takeDigits (ds ++ rest) = (ds ++ (takeDigits rest).1, (takeDigits rest).2) := by
  induction ds with
  | nil => rfl
  | cons c ds ih =>
    have hc : isDigitCh c = true := h c (by simp)
    have ih' := ih (fun x hx => h x (by simp [hx]))
    simp [takeDigits, hc, ih']

theorem takeDigits_all_digits (ds : List Char) (h : ∀ c ∈ ds, isDigitCh c = true) :
    takeDigits ds = (ds, []) := by
  have := takeDigits_append ds [] h
  simpa [takeDigits] using this

theorem scanNumber_all_digits (ds : List Char) (h : ∀ c ∈ ds, isDigitCh c = true) :
    scanNumber ds = (ds, []) := by
  simp [scanNumber, takeDigits_all_digits ds h]

theorem scanNumber_decimal (d1 d2 : List Char) (h1 : ∀ c ∈ d1, isDigitCh c = true)
    (h2 : ∀ c ∈ d2, isDigitCh c = true) (hne : d2 ≠ []) :
    scanNumber (d1 ++ '.' :: d2) = (d1 ++ '.' :: d2, []) := by
  obtain ⟨c2, d2', rfl⟩ : ∃ c2 d2', d2 = c2 :: d2' := by
    cases d2 with
    | nil => simp at hne
    | cons a b => exact ⟨a, b, rfl⟩
  have hdot : takeDigits ('.' :: c2 :: d2') = ([], '.' :: c2 :: d2') := by
    simp [takeDigits, show isDigitCh '.' = false from by decide]
  have ht : takeDigits (d1 ++ '.' :: c2 :: d2') = (d1, '.' :: c2 :: d2') := by
    rw [takeDigits_append d1 _ h1, hdot]
    simp
  have hc2 : isDigitCh c2 = true := h2 c2 (by simp)
  have ht2 : takeDigits (c2 :: d2') = (c2 :: d2', []) := takeDigits_all_digits _ h2
  unfold scanNumber
  rw [ht]
  simp [hc2, ht2]

theorem skipWhiteSpace_not_ws (c : Char) (cs : List Char) (l k : Nat)
    (h : isWsChar c = false) : skipWhiteSpace (c :: cs) l k = (c :: cs, l, k) := by
  simp [isWsChar] at h
  obtain ⟨⟨⟨h1, h2⟩, h3⟩, h4⟩ := h
  simp [skipWhiteSpace, h1, h2, h3, h4]

theorem digit_not_ws (c : Char) (h : isDigitCh c = true) : isWsChar c = false := by
  cases hb : isWsChar c with
  | false => rfl
  | true =>
    exfalso
    simp [isWsChar] at hb
    rcases hb with ((rfl | rfl) | rfl) | rfl <;> exact absurd h (by decide)

theorem scanTokensAux_nil (n l k : Nat) :
    scanTokensAux (n + 1) [] l k = .ok [⟨.EOF, "", l, k⟩] :=
  rfl

theorem scanTokens_int_literal (ds : List Char) (hne : ds ≠ [])
    (h : ∀ c ∈ ds, isDigitCh c = true) :
    scanTokens (String.mk ds) =
      .ok [⟨.NUMBER, String.mk ds, 0, ds.length⟩, ⟨.EOF, "", 0, ds.length⟩] := by
  obtain ⟨c, ds', rfl⟩ : ∃ c ds', ds = c :: ds' := by
    cases ds with
    | nil => simp at hne
    | cons a b => exact ⟨a, b, rfl⟩
  have hc : isDigitCh c = true := h c (by simp)
  show scanTokensAux ((String.mk (c :: ds')).length + 1) (c :: ds') 0 0 = _
  simp only [scanTokensAux, skipWhiteSpace_not_ws c ds' 0 0 (digit_not_ws c hc), hc,
    scanNumber_all_digits (c :: ds') h, scanTokensAux_nil]
  simp [skipWhiteSpace, String.length]

theorem scanTokens_decimal_literal (d1 d2 : List Char) (h1ne : d1 ≠ [])
    (h2ne : d2 ≠ []) (h1 : ∀ c ∈ d1, isDigitCh c = true)
    (h2 : ∀ c ∈ d2, isDigitCh c = true) :
    scanTokens (String.mk (d1 ++ '.' :: d2)) =
      .ok [⟨.NUMBER, String.mk (d1 ++ '.' :: d2), 0, (d1 ++ '.' :: d2).length⟩,
           ⟨.EOF, "", 0, (d1 ++ '.' :: d2).length⟩] := by
  obtain ⟨c, d1', rfl⟩ : ∃ c d1', d1 = c :: d1' := by
    cases d1 with
    | nil => simp at h1ne
    | cons a b => exact ⟨a, b, rfl⟩
  have hc : isDigitCh c = true := h1 c (by simp)
  have hsn : scanNumber (c :: (d1' ++ '.' :: d2)) = (c :: (d1' ++ '.' :: d2), []) := by
    have := scanNumber_decimal (c :: d1') d2 h1 h2 h2ne
    simpa using this
  show scanTokensAux ((String.mk (c :: d1' ++ '.' :: d2)).length + 1)
      (c :: d1' ++ '.' :: d2) 0 0 = _
  simp only [List.cons_append]
  simp only [scanTokensAux, skipWhiteSpace_not_ws _ _ 0 0 (digit_not_ws c hc), hc, hsn,
    scanTokensAux_nil]
  simp [skipWhiteSpace, String.length]

/-- C9: the scanner scans a number as a digit run, optionally followed by
`.` and a further digit run only when at least one digit follows the dot.
For every valid number literal — an integer form (first conjunct) or a
decimal form (second conjunct) — scanning the literal text yields exactly
one `NUMBER` token whose lexeme is the literal text, followed by
end-of-input.  On `"123."`, `scanNumber` consumes only `"123"` and leaves
the dot unconsumed (third conjunct); the token loop then rejects that
dot as an unrecognized continuation (fourth conjunct). -/
theorem C9_number_literal_scanning :
    (∀ ds : List Char, ds ≠ [] → (∀ c ∈ ds, isDigitCh c = true) →
       scanTokens (String.mk ds) =
         .ok [⟨.NUMBER, String.mk ds, 0, ds.length⟩, ⟨.EOF, "", 0, ds.length⟩]) ∧
    (∀ d1 d2 : List Char, d1 ≠ [] → d2 ≠ [] →
       (∀ c ∈ d1, isDigitCh c = true) → (∀ c ∈ d2, isDigitCh c = true) →
       scanTokens (String.mk (d1 ++ '.' :: d2)) =
         .ok [⟨.NUMBER, String.mk (d1 ++ '.' :: d2), 0, (d1 ++ '.' :: d2).length⟩,
              ⟨.EOF, "", 0, (d1 ++ '.' :: d2).length⟩]) ∧
    scanNumber "123.".data = (['1', '2', '3'], ['.']) ∧
    scanTokens "123." = .error "Unknown operator: ." :=
  ⟨scanTokens_int_literal, scanTokens_decimal_literal, by decide, rfl⟩

/-- Witness for C9 on the literals `42` and `3.25`. -/
theorem C9_number_literal_scanning_witness :
    scanTokens (String.mk ['4', '2']) =
      .ok [⟨.NUMBER, String.mk ['4', '2'], 0, 2⟩, ⟨.EOF, "", 0, 2⟩] ∧
    scanTokens (String.mk (['3'] ++ '.' :: ['2', '5'])) =
      .ok [⟨.NUMBER, String.mk (['3'] ++ '.' :: ['2', '5']), 0, 4⟩, ⟨.EOF, "", 0, 4⟩] :=
  ⟨C9_number_literal_scanning.1 ['4', '2'] (by decide) (by decide),
   C9_number_literal_scanning.2.1 ['3'] ['2', '5'] (by decide) (by decide) (by decide)
     (by decide)⟩

theorem plainCh_of_ne (c : Char) (h1 : c ≠ '"') (h2 : c ≠ '\'') (h3 : c ≠ ';')
    (h4 : c ≠ '\x7b') (h5 : c ≠ '\x7d') (h6 : c ≠ ',') : plainCh c = true := by
  simp [plainCh, badChar, h1, h2, h3, h4, h5, h6]

theorem plain_of_digit (c : Char) (h : isDigitCh c = true) : plainCh c = true := by
  refine plainCh_of_ne c ?_ ?_ ?_ ?_ ?_ ?_ <;> (rintro rfl; exact absurd h (by decide))

theorem plain_of_alphaNum (c : Char) (h : isAlphaNumericCh c = true) : plainCh c = true := by
  refine plainCh_of_ne c ?_ ?_ ?_ ?_ ?_ ?_ <;> (rintro rfl; exact absurd h (by decide))

theorem hasBareBadAux_plain_cons (c : Char) (cs : List Char) (h : plainCh c = true) :
    hasBareBadAux none (c :: cs) = hasBareBadAux none cs := by
  have h' := h
  simp [plainCh] at h'
  simp [hasBareBadAux, h'.1.1, h'.1.2, h'.2]

theorem hasBareBadAux_plain_chunk (pre rest : List Char)
    (h : ∀ c ∈ pre, plainCh c = true) :
    hasBareBadAux none (pre ++ rest) = hasBareBadAux none rest := by
  induction pre with
  | nil => rfl
  | cons c pre ih =>
    rw [List.cons_append, hasBareBadAux_plain_cons c _ (h c (by simp))]
    exact ih (fun x hx => h x (by simp [hx]))

theorem hasBareBadAux_quote (c : Char) (cs : List Char) (h : (c = '"' || c = '\'') = true) :
    hasBareBadAux none (c :: cs) = hasBareBadAux (some c) cs := by
  simp [hasBareBadAux, h]

theorem hasBareBadAux_string_chunk (q : Char) (content rest : List Char)
    (h : ∀ c ∈ content, (c = q) = false) :
    hasBareBadAux (some q) (content ++ q :: rest) = hasBareBadAux none rest := by
  induction content with
  | nil => simp [hasBareBadAux]
  | cons c content ih =>
    have hc : (c = q) = false := h c (by simp)
    simp only [List.cons_append, hasBareBadAux, hc]
    simp only [Bool.false_eq_true, if_false]
    exact ih (fun x hx => h x (by simp [hx]))

theorem takeDigits_split (cs : List Char) :
    (takeDigits cs).1 ++ (takeDigits cs).2 = cs ∧
    ∀ c ∈ (takeDigits cs).1, isDigitCh c = true := by
  induction cs with
  | nil => simp [takeDigits]
  | cons c cs ih =>
    by_cases h : isDigitCh c = true
    · constructor
      · simp [takeDigits, h, ih.1]
      · intro x hx
        simp only [takeDigits, h, if_true] at hx
        simp only [List.mem_cons] at hx
        rcases hx with rfl | hx
        · exact h
        · exact ih.2 x hx
    · simp [takeDigits, h]

theorem takeAlphaNum_split (cs : List Char) :
    (takeAlphaNum cs).1 ++ (takeAlphaNum cs).2 = cs ∧
    ∀ c ∈ (takeAlphaNum cs).1, isAlphaNumericCh c = true := by
  induction cs with
  | nil => simp [takeAlphaNum]
  | cons c cs ih =>
    by_cases h : isAlphaNumericCh c = true
    · constructor
      · simp [takeAlphaNum, h, ih.1]
      · intro x hx
        simp only [takeAlphaNum, h, if_true] at hx
        simp only [List.mem_cons] at hx
        rcases hx with rfl | hx
        · exact h
        · exact ih.2 x hx
    · simp [takeAlphaNum, h]

theorem scanNumber_split (cs : List Char) :
    (scanNumber cs).1 ++ (scanNumber cs).2 = cs ∧
    ∀ c ∈ (scanNumber cs).1, plainCh c = true := by
  rcases h2 : (takeDigits cs).2 with _ | ⟨c1, rest⟩
  · have heq : scanNumber cs = ((takeDigits cs).1, (takeDigits cs).2) := by
      unfold scanNumber
      dsimp only
      rw [h2]
    rw [heq, h2]
    have h := takeDigits_split cs
    rw [h2] at h
    exact ⟨by simpa using h.1, fun c hc => plain_of_digit c (h.2 c hc)⟩
  · rcases rest with _ | ⟨c2, rest2⟩
    · have heq : scanNumber cs = ((takeDigits cs).1, (takeDigits cs).2) := by
        unfold scanNumber
        dsimp only
        rw [h2]
      rw [heq, h2]
      have h := takeDigits_split cs
      rw [h2] at h
      exact ⟨h.1, fun c hc => plain_of_digit c (h.2 c hc)⟩
    · have h := takeDigits_split cs
      rw [h2] at h
      have hq := takeDigits_split (c2 :: rest2)
      by_cases hd : (c1 = '.' && isDigitCh c2) = true
      · have hd' : c1 = '.' ∧ isDigitCh c2 = true := by simpa using hd
        obtain ⟨rfl, hdig⟩ := hd'
        have heq : scanNumber cs =
            ((takeDigits cs).1 ++ '.' :: (takeDigits (c2 :: rest2)).1,
              (takeDigits (c2 :: rest2)).2) := by
          unfold scanNumber
          dsimp only
          rw [h2]
          simp [hdig]
        rw [heq]
        constructor
        · rw [List.append_assoc, List.cons_append, hq.1, h.1]
        · intro x hx
          simp only [List.mem_append, List.mem_cons] at hx
          rcases hx with hx | rfl | hx
          · exact plain_of_digit x (h.2 x hx)
          · decide
          · exact plain_of_digit x (hq.2 x hx)
      · have heq : scanNumber cs = ((takeDigits cs).1, (takeDigits cs).2) := by
          unfold scanNumber
          dsimp only
          rw [h2]
          simp [hd]
        rw [heq, h2]
        exact ⟨h.1, fun c hc => plain_of_digit c (h.2 c hc)⟩

theorem scanIdentifier_split (cs : List Char) :
    (scanIdentifier cs).1 ++ (scanIdentifier cs).2 = cs ∧
    ∀ c ∈ (scanIdentifier cs).1, plainCh c = true := by
  unfold scanIdentifier
  match cs with
  | [] => simp
  | c :: cs =>
    by_cases h : isAlphaCh c = true
    · simp only [h, if_true]
      have ht := takeAlphaNum_split cs
      constructor
      · simp [ht.1]
      · intro x hx
        simp only [List.mem_cons] at hx
        rcases hx with rfl | hx
        · exact plain_of_alphaNum x (by simp [isAlphaNumericCh, h])
        · exact plain_of_alphaNum x (ht.2 x hx)
    · simp only [h, if_false]
      have ht := takeAlphaNum_split (c :: cs)
      exact ⟨ht.1, fun x hx => plain_of_alphaNum x (ht.2 x hx)⟩

theorem scanStringBody_split (q : Char) (cs : List Char) (p : List Char × List Char)
    (h : scanStringBody q cs = .ok p) :
    cs = p.1 ++ q :: p.2 ∧ ∀ c ∈ p.1, (c = q) = false := by
  induction cs generalizing p with
  | nil => simp [scanStringBody] at h
  | cons c cs ih =>
    unfold scanStringBody at h
    by_cases hc : c = q
    · rw [if_pos hc] at h
      cases h
      simp [hc]
    · rw [if_neg hc] at h
      rcases hr : scanStringBody q cs with e | p'
      · rw [hr] at h
        exact absurd h (by simp)
      · rw [hr] at h
        simp only [Except.ok.injEq] at h
        subst h
        have ihp := ih p' hr
        constructor
        · simp [ihp.1]
        · intro x hx
          simp only [List.mem_cons] at hx
          rcases hx with rfl | hx
          · simp [hc]
          · exact ihp.2 x hx

theorem skipWhiteSpace_facts (cs : List Char) (l k : Nat) :
    hasBareBad (skipWhiteSpace cs l k).1 = hasBareBad cs ∧
    (skipWhiteSpace cs l k).1.length ≤ cs.length := by
  induction cs generalizing l k with
  | nil => simp [skipWhiteSpace]
  | cons c cs ih =>
    by_cases h1 : (c = ' ' || c = '\t' || c = '\r') = true
    · have hstep : skipWhiteSpace (c :: cs) l k = skipWhiteSpace cs l (k + 1) := by
        rw [skipWhiteSpace.eq_2, if_pos h1]
      have hplain : plainCh c = true := by
        simp at h1
        rcases h1 with (rfl | rfl) | rfl <;> decide
      rw [hstep]
      refine ⟨?_, le_trans (ih l (k + 1)).2 (by simp)⟩
      rw [(ih l (k + 1)).1]
      exact (hasBareBadAux_plain_cons c cs hplain).symm
    · by_cases h2 : c = '\n'
      · subst h2
        have hstep : skipWhiteSpace ('\n' :: cs) l k = skipWhiteSpace cs (l + 1) 1 := by
          rw [skipWhiteSpace.eq_2, if_neg h1, if_pos (by decide)]
        rw [hstep]
        refine ⟨?_, le_trans (ih (l + 1) 1).2 (by simp)⟩
        rw [(ih (l + 1) 1).1]
        exact (hasBareBadAux_plain_cons '\n' cs (by decide)).symm
      · have hstep : skipWhiteSpace (c :: cs) l k = (c :: cs, l, k) := by
          rw [skipWhiteSpace.eq_2, if_neg h1, if_neg (by simpa using h2)]
        rw [hstep]
        exact ⟨rfl, le_refl _⟩

theorem head_some_eq {α : Type} (xs : List α) (x : α) (h : xs.head? = some x) :
    xs = x :: xs.tail := by
  cases xs <;> simp_all

theorem scanOperator_facts (cs : List Char) (l k : Nat) (tok : Token) (rest' : List Char)
    (k' : Nat) (h : scanOperator cs l k = .ok (tok, rest', k')) :
    hasBareBadAux none cs = hasBareBadAux none rest' ∧ rest'.length < cs.length ∧
    tok.type ≠ .SEMICOLON ∧ tok.type ≠ .LBRACE ∧ tok.type ≠ .RBRACE ∧ tok.type ≠ .COMMA := by
  match cs with
  | [] => simp [scanOperator] at h
  | c :: rest =>
    rw [scanOperator.eq_2] at h
    by_cases h1 : c = '+'
    · rw [if_pos h1] at h
      subst h1
      obtain ⟨rfl, rfl, rfl⟩ : tok = ⟨.PLUS, "+", l, k + 1⟩ ∧ rest' = rest ∧ k' = k + 1 := by
        simpa [eq_comm, and_assoc] using h
      exact ⟨hasBareBadAux_plain_cons _ _ (by decide), by simp, by simp, by simp,
        by simp, by simp⟩
    rw [if_neg h1] at h
    by_cases h2 : c = '-'
    · rw [if_pos h2] at h
      subst h2
      obtain ⟨rfl, rfl, rfl⟩ : tok = ⟨.MINUS, "-", l, k + 1⟩ ∧ rest' = rest ∧ k' = k + 1 := by
        simpa [eq_comm, and_assoc] using h
      exact ⟨hasBareBadAux_plain_cons _ _ (by decide), by simp, by simp, by simp,
        by simp, by simp⟩
    rw [if_neg h2] at h
    by_cases h3 : c = '*'
    · rw [if_pos h3] at h
      subst h3
      obtain ⟨rfl, rfl, rfl⟩ : tok = ⟨.STAR, "*", l, k + 1⟩ ∧ rest' = rest ∧ k' = k + 1 := by
        simpa [eq_comm, and_assoc] using h
      exact ⟨hasBareBadAux_plain_cons _ _ (by decide), by simp, by simp, by simp,
        by simp, by simp⟩
    rw [if_neg h3] at h
    by_cases h4 : c = '/'
    · rw [if_pos h4] at h
      subst h4
      obtain ⟨rfl, rfl, rfl⟩ : tok = ⟨.SLASH, "/", l, k + 1⟩ ∧ rest' = rest ∧ k' = k + 1 := by
        simpa [eq_comm, and_assoc] using h
      exact ⟨hasBareBadAux_plain_cons _ _ (by decide), by simp, by simp, by simp,
        by simp, by simp⟩
    rw [if_neg h4] at h
    by_cases h5 : c = '%'
    · rw [if_pos h5] at h
      subst h5
      obtain ⟨rfl, rfl, rfl⟩ : tok = ⟨.PERCENT, "%", l, k + 1⟩ ∧ rest' = rest ∧ k' = k + 1 := by
        simpa [eq_comm, and_assoc] using h
      exact ⟨hasBareBadAux_plain_cons _ _ (by decide), by simp, by simp, by simp,
        by simp, by simp⟩
    rw [if_neg h5] at h
    by_cases h6 : c = '='
    · rw [if_pos h6] at h
      subst h6
      by_cases hh6 : rest.head? = some '='
      · rw [if_pos hh6] at h
        obtain ⟨t, rfl⟩ : ∃ t, rest = '=' :: t := ⟨rest.tail, head_some_eq rest '=' hh6⟩
        obtain ⟨rfl, rfl, rfl⟩ :
            tok = ⟨.EQUAL_EQUAL, "==", l, k + 2⟩ ∧ rest' = t ∧ k' = k + 2 := by
          simpa [eq_comm, and_assoc] using h
        refine ⟨?_, by simp only [List.length_cons]; omega, by simp, by simp, by simp, by simp⟩
        rw [hasBareBadAux_plain_cons _ _ (by decide), hasBareBadAux_plain_cons _ _ (by decide)]
      · rw [if_neg hh6] at h
        obtain ⟨rfl, rfl, rfl⟩ : tok = ⟨.EQUAL, "=", l, k + 1⟩ ∧ rest' = rest ∧ k' = k + 1 := by
          simpa [eq_comm, and_assoc] using h
        exact ⟨hasBareBadAux_plain_cons _ _ (by decide), by simp, by simp, by simp,
          by simp, by simp⟩
    rw [if_neg h6] at h
    by_cases h7 : c = '!'
    · rw [if_pos h7] at h
      subst h7
      by_cases hh7 : rest.head? = some '='
      · rw [if_pos hh7] at h
        obtain ⟨t, rfl⟩ : ∃ t, rest = '=' :: t := ⟨rest.tail, head_some_eq rest '=' hh7⟩
        obtain ⟨rfl, rfl, rfl⟩ :
            tok = ⟨.BANG_EQUAL, "!=", l, k + 2⟩ ∧ rest' = t ∧ k' = k + 2 := by
          simpa [eq_comm, and_assoc] using h
        refine ⟨?_, by simp only [List.length_cons]; omega, by simp, by simp, by simp, by simp⟩
        rw [hasBareBadAux_plain_cons _ _ (by decide), hasBareBadAux_plain_cons _ _ (by decide)]
      · rw [if_neg hh7] at h
        obtain ⟨rfl, rfl, rfl⟩ : tok = ⟨.BANG, "!", l, k + 1⟩ ∧ rest' = rest ∧ k' = k + 1 := by
          simpa [eq_comm, and_assoc] using h
        exact ⟨hasBareBadAux_plain_cons _ _ (by decide), by simp, by simp, by simp,
          by simp, by simp⟩
    rw [if_neg h7] at h
    by_cases h8 : c = '<'
    · rw [if_pos h8] at h
      subst h8
      by_cases hh8 : rest.head? = some '='
      · rw [if_pos hh8] at h
        obtain ⟨t, rfl⟩ : ∃ t, rest = '=' :: t := ⟨rest.tail, head_some_eq rest '=' hh8⟩
        obtain ⟨rfl, rfl, rfl⟩ :
            tok = ⟨.LESS_EQUAL, "<=", l, k + 2⟩ ∧ rest' = t ∧ k' = k + 2 := by
          simpa [eq_comm, and_assoc] using h
        refine ⟨?_, by simp only [List.length_cons]; omega, by simp, by simp, by simp, by simp⟩
        rw [hasBareBadAux_plain_cons _ _ (by decide), hasBareBadAux_plain_cons _ _ (by decide)]
      · rw [if_neg hh8] at h
        obtain ⟨rfl, rfl, rfl⟩ : tok = ⟨.LESS, "<", l, k + 1⟩ ∧ rest' = rest ∧ k' = k + 1 := by
          simpa [eq_comm, and_assoc] using h
        exact ⟨hasBareBadAux_plain_cons _ _ (by decide), by simp, by simp, by simp,
          by simp, by simp⟩
    rw [if_neg h8] at h
    by_cases h9 : c = '>'
    · rw [if_pos h9] at h
      subst h9
      by_cases hh9 : rest.head? = some '='
      · rw [if_pos hh9] at h
        obtain ⟨t, rfl⟩ : ∃ t, rest = '=' :: t := ⟨rest.tail, head_some_eq rest '=' hh9⟩
        obtain ⟨rfl, rfl, rfl⟩ :
            tok = ⟨.GREATER_EQUAL, ">=", l, k + 2⟩ ∧ rest' = t ∧ k' = k + 2 := by
          simpa [eq_comm, and_assoc] using h
        refine ⟨?_, by simp only [List.length_cons]; omega, by simp, by simp, by simp, by simp⟩
        rw [hasBareBadAux_plain_cons _ _ (by decide), hasBareBadAux_plain_cons _ _ (by decide)]
      · rw [if_neg hh9] at h
        obtain ⟨rfl, rfl, rfl⟩ : tok = ⟨.GREATER, ">", l, k + 1⟩ ∧ rest' = rest ∧ k' = k + 1 := by
          simpa [eq_comm, and_assoc] using h
        exact ⟨hasBareBadAux_plain_cons _ _ (by decide), by simp, by simp, by simp,
          by simp, by simp⟩
    rw [if_neg h9] at h
    by_cases h10 : c = '&'
    · rw [if_pos h10] at h
      subst h10
      by_cases hh10 : rest.head? = some '&'
      · rw [if_pos hh10] at h
        obtain ⟨t, rfl⟩ : ∃ t, rest = '&' :: t := ⟨rest.tail, head_some_eq rest '&' hh10⟩
        obtain ⟨rfl, rfl, rfl⟩ :
            tok = ⟨.AND, "&&", l, k + 2⟩ ∧ rest' = t ∧ k' = k + 2 := by
          simpa [eq_comm, and_assoc] using h
        refine ⟨?_, by simp only [List.length_cons]; omega, by simp, by simp, by simp, by simp⟩
        rw [hasBareBadAux_plain_cons _ _ (by decide), hasBareBadAux_plain_cons _ _ (by decide)]
      · rw [if_neg hh10] at h
        exact absurd h (by simp)
    rw [if_neg h10] at h
    by_cases h11 : c = '|'
    · rw [if_pos h11] at h
      subst h11
      by_cases hh11 : rest.head? = some '|'
      · rw [if_pos hh11] at h
        obtain ⟨t, rfl⟩ : ∃ t, rest = '|' :: t := ⟨rest.tail, head_some_eq rest '|' hh11⟩
        obtain ⟨rfl, rfl, rfl⟩ :
            tok = ⟨.OR, "||", l, k + 2⟩ ∧ rest' = t ∧ k' = k + 2 := by
          simpa [eq_comm, and_assoc] using h
        refine ⟨?_, by simp only [List.length_cons]; omega, by simp, by simp, by simp, by simp⟩
        rw [hasBareBadAux_plain_cons _ _ (by decide), hasBareBadAux_plain_cons _ _ (by decide)]
      · rw [if_neg hh11] at h
        exact absurd h (by simp)
    rw [if_neg h11] at h
    exact absurd h (by simp)

theorem lookupIdentifier_not_delim (s : String) :
    lookupIdentifier s ≠ .SEMICOLON ∧ lookupIdentifier s ≠ .LBRACE ∧
    lookupIdentifier s ≠ .RBRACE ∧ lookupIdentifier s ≠ .COMMA := by
  rw [lookupIdentifier]
  by_cases h0 : s = "let"
  · rw [if_pos h0]
    simp
  · rw [if_neg h0]
    by_cases h1 : s = "const"
    · rw [if_pos h1]
      simp
    · rw [if_neg h1]
      by_cases h2 : s = "function"
      · rw [if_pos h2]
        simp
      · rw [if_neg h2]
        by_cases h3 : s = "return"
        · rw [if_pos h3]
          simp
        · rw [if_neg h3]
          by_cases h4 : s = "if"
          · rw [if_pos h4]
            simp
          · rw [if_neg h4]
            by_cases h5 : s = "else"
            · rw [if_pos h5]
              simp
            · rw [if_neg h5]
              by_cases h6 : s = "while"
              · rw [if_pos h6]
                simp
              · rw [if_neg h6]
                by_cases h7 : s = "for"
                · rw [if_pos h7]
                  simp
                · rw [if_neg h7]
                  by_cases h8 : s = "break"
                  · rw [if_pos h8]
                    simp
                  · rw [if_neg h8]
                    by_cases h9 : s = "continue"
                    · rw [if_pos h9]
                      simp
                    · rw [if_neg h9]
                      by_cases h10 : s = "true"
                      · rw [if_pos h10]
                        simp
                      · rw [if_neg h10]
                        by_cases h11 : s = "false"
                        · rw [if_pos h11]
                          simp
                        · rw [if_neg h11]
                          by_cases h12 : s = "null"
                          · rw [if_pos h12]
                            simp
                          · rw [if_neg h12]
                            by_cases h13 : s = "print"
                            · rw [if_pos h13]
                              simp
                            · rw [if_neg h13]
                              simp

theorem bare_step (pre rest : List Char)
    (hplain : ∀ c ∈ pre, plainCh c = true) (hpre : pre ≠ [])
    (hbad : hasBareBad (pre ++ rest) = true) :
    hasBareBad rest = true ∧ rest.length < (pre ++ rest).length := by
  constructor
  · rw [hasBareBad, ← hasBareBadAux_plain_chunk pre rest hplain]
    exact hbad
  · have hp : 0 < pre.length := List.length_pos.mpr hpre
    simp only [List.length_append]
    omega

theorem scanNumber_cons_digit (c : Char) (cs : List Char) (h : isDigitCh c = true) :
    ∃ t, (scanNumber (c :: cs)).1 = c :: t := by
  have htd : takeDigits (c :: cs) = (c :: (takeDigits cs).1, (takeDigits cs).2) := by
    simp [takeDigits, h]
  rcases h2 : (takeDigits cs).2 with _ | ⟨c1, rest⟩
  · refine ⟨(takeDigits cs).1, ?_⟩
    unfold scanNumber
    dsimp only
    rw [htd, h2]
  · rcases rest with _ | ⟨c2, rest2⟩
    · refine ⟨(takeDigits cs).1, ?_⟩
      unfold scanNumber
      dsimp only
      rw [htd, h2]
    · by_cases hd : (c1 = '.' && isDigitCh c2) = true
      · refine ⟨(takeDigits cs).1 ++ c1 :: (takeDigits (c2 :: rest2)).1, ?_⟩
        unfold scanNumber
        dsimp only
        rw [htd, h2]
        simp [hd]
      · refine ⟨(takeDigits cs).1, ?_⟩
        unfold scanNumber
        dsimp only
        rw [htd, h2]
        simp [hd]

theorem scanIdentifier_cons_alpha (c : Char) (cs : List Char) (h : isAlphaCh c = true) :
    (scanIdentifier (c :: cs)).1 = c :: (takeAlphaNum cs).1 := by
  simp [scanIdentifier, h]

theorem except_map_ok {ε α β : Type} (f : α → β) (x : Except ε α) (b : β)
    (h : (f <$> x) = .ok b) : ∃ a, x = .ok a ∧ b = f a := by
  cases x with
  | error e => simp [Functor.map, Except.map] at h
  | ok a =>
    refine ⟨a, rfl, ?_⟩
    simpa [Functor.map, Except.map, eq_comm] using h

theorem scanTokensAux_error_of_bareBad :
    ∀ (fuel : Nat) (cs : List Char) (l k : Nat), cs.length < fuel →
      hasBareBad cs = true → ∃ e, scanTokensAux fuel cs l k = .error e := by
  intro fuel
  induction fuel with
  | zero => intro cs l k hlen _; omega
  | succ fuel ih =>
    intro cs l k hlen hbad
    rw [scanTokensAux.eq_2]
    obtain ⟨hskipbad, hskiplen⟩ := skipWhiteSpace_facts cs l k
    rcases hw : skipWhiteSpace cs l k with ⟨cs1, l1, k1⟩
    rw [hw] at hskipbad hskiplen
    dsimp only at hskipbad hskiplen
    dsimp only
    rcases cs1 with _ | ⟨c, cs2⟩
    · exfalso
      rw [← hskipbad] at hbad
      simp [hasBareBad, hasBareBadAux] at hbad
    · dsimp only
      have hbad1 : hasBareBad (c :: cs2) = true := by
        rw [← hskipbad] at hbad
        exact hbad
      by_cases hdg : isDigitCh c = true
      · rw [if_pos hdg]
        obtain ⟨tl, htl⟩ := scanNumber_cons_digit c cs2 hdg
        have hsp := scanNumber_split (c :: cs2)
        have hne : (scanNumber (c :: cs2)).1 ≠ [] := by rw [htl]; simp
        have hst := bare_step (scanNumber (c :: cs2)).1 (scanNumber (c :: cs2)).2
          hsp.2 hne (by rw [hsp.1]; exact hbad1)
        have hlt : (scanNumber (c :: cs2)).2.length < fuel := by
          have h2 := hst.2
          rw [hsp.1] at h2
          simp only [List.length_cons] at h2 hskiplen
          omega
        obtain ⟨e, he⟩ := ih (scanNumber (c :: cs2)).2 l1 (k1 + (scanNumber (c :: cs2)).1.length)
          hlt hst.1
        refine ⟨e, ?_⟩
        dsimp only
        rw [he]
        rfl
      · rw [if_neg hdg]
        by_cases hal : isAlphaCh c = true
        · rw [if_pos hal]
          have hsp := scanIdentifier_split (c :: cs2)
          have hne : (scanIdentifier (c :: cs2)).1 ≠ [] := by
            rw [scanIdentifier_cons_alpha c cs2 hal]
            simp
          have hst := bare_step (scanIdentifier (c :: cs2)).1 (scanIdentifier (c :: cs2)).2
            hsp.2 hne (by rw [hsp.1]; exact hbad1)
          have hlt : (scanIdentifier (c :: cs2)).2.length < fuel := by
            have h2 := hst.2
            rw [hsp.1] at h2
            simp only [List.length_cons] at h2 hskiplen
            omega
          obtain ⟨e, he⟩ := ih (scanIdentifier (c :: cs2)).2 l1
            (k1 + (scanIdentifier (c :: cs2)).1.length) hlt hst.1
          refine ⟨e, ?_⟩
          dsimp only
          rw [he]
          rfl
        · rw [if_neg hal]
          by_cases hq : (c = '"' || c = '\'') = true
          · rw [if_pos hq]
            rcases hss : scanString (c :: cs2) with e | p
            · exact ⟨e, rfl⟩
            · have hsb : scanStringBody c cs2 = .ok p := hss
              have hsplit := scanStringBody_split c cs2 p hsb
              have hbad2 : hasBareBad p.2 = true := by
                rw [hasBareBad, hasBareBadAux_quote c cs2 hq, hsplit.1,
                  hasBareBadAux_string_chunk c p.1 p.2 hsplit.2] at hbad1
                exact hbad1
              have hlt : p.2.length < fuel := by
                have h2 := congrArg List.length hsplit.1
                simp only [List.length_append, List.length_cons] at h2 hskiplen
                omega
              obtain ⟨e, he⟩ := ih p.2 l1 (k1 + p.1.length + 2) hlt hbad2
              refine ⟨e, ?_⟩
              dsimp only
              rw [he]
              rfl
          · rw [if_neg hq]
            by_cases hlp : c = '('
            · rw [if_pos hlp]
              subst hlp
              have hbad2 : hasBareBad cs2 = true := by
                rw [hasBareBad, hasBareBadAux_plain_cons _ _ (by decide)] at hbad1
                exact hbad1
              have hlt : cs2.length < fuel := by
                simp only [List.length_cons] at hskiplen
                omega
              obtain ⟨e, he⟩ := ih cs2 l1 (k1 + 1) hlt hbad2
              refine ⟨e, ?_⟩
              rw [he]
              rfl
            · rw [if_neg hlp]
              by_cases hrp : c = ')'
              · rw [if_pos hrp]
                subst hrp
                have hbad2 : hasBareBad cs2 = true := by
                  rw [hasBareBad, hasBareBadAux_plain_cons _ _ (by decide)] at hbad1
                  exact hbad1
                have hlt : cs2.length < fuel := by
                  simp only [List.length_cons] at hskiplen
                  omega
                obtain ⟨e, he⟩ := ih cs2 l1 (k1 + 1) hlt hbad2
                refine ⟨e, ?_⟩
                rw [he]
                rfl
              · rw [if_neg hrp]
                rcases hop : scanOperator (c :: cs2) l1 k1 with e | ⟨tok, rest', k'⟩
                · exact ⟨e, rfl⟩
                · obtain ⟨hpres, hltop, -, -, -, -⟩ :=
                    scanOperator_facts (c :: cs2) l1 k1 tok rest' k' hop
                  have hbad2 : hasBareBad rest' = true := by
                    rw [hasBareBad, ← hpres]
                    exact hbad1
                  have hlt : rest'.length < fuel := by
                    simp only [List.length_cons] at hltop hskiplen
                    omega
                  obtain ⟨e, he⟩ := ih rest' l1 k' hlt hbad2
                  refine ⟨e, ?_⟩
                  dsimp only
                  rw [he]
                  rfl

theorem scanTokens_error_of_bareBad (s : String) (h : hasBareBad s.data = true) :
    ∃ e, scanTokens s = .error e := by
  refine scanTokensAux_error_of_bareBad (s.length + 1) s.data 0 0 ?_ h
  have hl : s.length = s.data.length := rfl
  omega

theorem scanTokensAux_no_delims :
    ∀ (fuel : Nat) (cs : List Char) (l k : Nat) (toks : List Token),
      scanTokensAux fuel cs l k = .ok toks → ∀ t ∈ toks,
      t.type ≠ .SEMICOLON ∧ t.type ≠ .LBRACE ∧ t.type ≠ .RBRACE ∧ t.type ≠ .COMMA := by
  intro fuel
  induction fuel with
  | zero =>
    intro cs l k toks h
    simp [scanTokensAux] at h
  | succ fuel ih =>
    intro cs l k toks h
    rw [scanTokensAux.eq_2] at h
    rcases hw : skipWhiteSpace cs l k with ⟨cs1, l1, k1⟩
    rw [hw] at h
    dsimp only at h
    rcases cs1 with _ | ⟨c, cs2⟩
    · simp only [Except.ok.injEq] at h
      subst h
      intro t ht
      simp only [List.mem_singleton] at ht
      subst ht
      simp
    · dsimp only at h
      by_cases hdg : isDigitCh c = true
      · rw [if_pos hdg] at h
        obtain ⟨ts, hts, rfl⟩ := except_map_ok _ _ _ h
        intro t ht
        simp only [List.mem_cons] at ht
        rcases ht with rfl | ht
        · simp
        · exact ih _ _ _ ts hts t ht
      · rw [if_neg hdg] at h
        by_cases hal : isAlphaCh c = true
        · rw [if_pos hal] at h
          obtain ⟨ts, hts, rfl⟩ := except_map_ok _ _ _ h
          intro t ht
          simp only [List.mem_cons] at ht
          rcases ht with rfl | ht
          · exact lookupIdentifier_not_delim _
          · exact ih _ _ _ ts hts t ht
        · rw [if_neg hal] at h
          by_cases hq : (c = '"' || c = '\'') = true
          · rw [if_pos hq] at h
            rcases hss : scanString (c :: cs2) with e | p
            · rw [hss] at h
              exact absurd h (by simp)
            · rw [hss] at h
              dsimp only at h
              obtain ⟨ts, hts, rfl⟩ := except_map_ok _ _ _ h
              intro t ht
              simp only [List.mem_cons] at ht
              rcases ht with rfl | ht
              · simp
              · exact ih _ _ _ ts hts t ht
          · rw [if_neg hq] at h
            by_cases hlp : c = '('
            · rw [if_pos hlp] at h
              obtain ⟨ts, hts, rfl⟩ := except_map_ok _ _ _ h
              intro t ht
              simp only [List.mem_cons] at ht
              rcases ht with rfl | ht
              · simp
              · exact ih _ _ _ ts hts t ht
            · rw [if_neg hlp] at h
              by_cases hrp : c = ')'
              · rw [if_pos hrp] at h
                obtain ⟨ts, hts, rfl⟩ := except_map_ok _ _ _ h
                intro t ht
                simp only [List.mem_cons] at ht
                rcases ht with rfl | ht
                · simp
                · exact ih _ _ _ ts hts t ht
              · rw [if_neg hrp] at h
                rcases hop : scanOperator (c :: cs2) l1 k1 with e | ⟨tok, rest', k'⟩
                · rw [hop] at h
                  exact absurd h (by simp)
                · rw [hop] at h
                  dsimp only at h
                  obtain ⟨ts, hts, rfl⟩ := except_map_ok _ _ _ h
                  intro t ht
                  simp only [List.mem_cons] at ht
                  rcases ht with rfl | ht
                  · obtain ⟨-, -, h1, h2, h3, h4⟩ :=
                      scanOperator_facts (c :: cs2) l1 k1 t rest' k' hop
                    exact ⟨h1, h2, h3, h4⟩
                  · exact ih _ _ _ ts hts t ht

theorem scanTokens_no_delims (s : String) (toks : List Token) (h : scanTokens s = .ok toks) :
    ∀ t ∈ toks, t.type ≠ .SEMICOLON ∧ t.type ≠ .LBRACE ∧ t.type ≠ .RBRACE ∧
      t.type ≠ .COMMA :=
  scanTokensAux_no_delims (s.length + 1) s.data 0 0 toks h

theorem parseExpressionStatement_requires_semicolon (fuel : Nat) (toks : List Token) (i : Nat)
    (e : Expr) (i1 : Nat) (hp : parseExpression fuel toks i = .ok (e, i1))
    (hns : checkT toks i1 .SEMICOLON = false) :
    parseExpressionStatement (fuel + 1) toks i =
      .error (parserError (peekT toks i1) "Expected ';' after expression") := by
  unfold parseExpressionStatement
  rw [parseStmtGo.eq_12, hp]
  dsimp only [Bind.bind, Except.bind]
  unfold consumeT
  rw [hns]
  simp

/-- C1 (corrected): the scanner has no token for `;`, `{`, `}` or `,`.
(1) Every source string with one of those characters outside a string
literal makes `scanTokens` fail with an error — though a lone `&` or `|`
reached first yields an `Unexpected character` error rather than the
claimed `Unknown operator` one, see the counterexample.  (2) A successful
scan never contains a `SEMICOLON`, `LBRACE`, `RBRACE` or `COMMA` token.
(3) Yet `Parser.parseExpressionStatement` demands a `SEMICOLON` token
after the expression and fails otherwise. -/
theorem C1_delimiters_unscannable :
    (∀ s : String, hasBareBad s.data = true → ∃ e, scanTokens s = .error e) ∧
    (∀ (s : String) (toks : List Token), scanTokens s = .ok toks → ∀ t ∈ toks,
      t.type ≠ .SEMICOLON ∧ t.type ≠ .LBRACE ∧ t.type ≠ .RBRACE ∧ t.type ≠ .COMMA) ∧
    (∀ (fuel : Nat) (toks : List Token) (i i1 : Nat) (e : Expr),
      parseExpression fuel toks i = .ok (e, i1) → checkT toks i1 .SEMICOLON = false →
      parseExpressionStatement (fuel + 1) toks i =
        .error (parserError (peekT toks i1) "Expected ';' after expression")) :=
  ⟨scanTokens_error_of_bareBad,
   scanTokens_no_delims,
   fun fuel toks i i1 e hp hns =>
     parseExpressionStatement_requires_semicolon fuel toks i e i1 hp hns⟩

/-- C1 counterexample to the claim as stated: on `"&;"` (a bare `;`
present) the scan does fail, but with `Unexpected character: &` — which
is not an `Unknown operator:` message for any suffix. -/
theorem C1_counterexample :
    hasBareBad "&;".data = true ∧
    scanTokens "&;" = .error "Unexpected character: &" ∧
    ∀ msg : String, "Unexpected character: &" ≠ "Unknown operator: " ++ msg := by
  refine ⟨by decide, by rfl, ?_⟩
  intro msg h
  have hd := congrArg String.data h
  have hq : ("Unknown operator: " ++ msg).data = "Unknown operator: ".data ++ msg.data := rfl
  rw [hq] at hd
  have h2 := congrArg (fun l => l.take 18) hd
  dsimp only at h2
  rw [List.take_append_of_le_length (by decide)] at h2
  exact absurd h2 (by decide)

/-- Witness for C1: concrete instances of all three conjuncts — `";"`
fails to scan, the scan of `"1"` yields a `NUMBER` (non-delimiter) token,
and the expression statement `x` (no trailing `;`) is a parse error. -/
theorem C1_delimiters_unscannable_witness :
    (∃ e, scanTokens ";" = .error e) ∧
    ((⟨.NUMBER, "1", 0, 1⟩ : Token).type ≠ .SEMICOLON ∧
      (⟨.NUMBER, "1", 0, 1⟩ : Token).type ≠ .LBRACE ∧
      (⟨.NUMBER, "1", 0, 1⟩ : Token).type ≠ .RBRACE ∧
      (⟨.NUMBER, "1", 0, 1⟩ : Token).type ≠ .COMMA) ∧
    parseExpressionStatement 31 [⟨.IDENTIFIER, "x", 0, 1⟩, ⟨.EOF, "", 0, 1⟩] 0 =
      .error (parserError (peekT [⟨.IDENTIFIER, "x", 0, 1⟩, ⟨.EOF, "", 0, 1⟩] 1)
        "Expected ';' after expression") :=
  ⟨C1_delimiters_unscannable.1 ";" (by decide),
   C1_delimiters_unscannable.2.1 "1" [⟨.NUMBER, "1", 0, 1⟩, ⟨.EOF, "", 0, 1⟩] (by rfl)
     ⟨.NUMBER, "1", 0, 1⟩ (List.mem_cons_self _ _),
   C1_delimiters_unscannable.2.2 30 [⟨.IDENTIFIER, "x", 0, 1⟩, ⟨.EOF, "", 0, 1⟩] 0 1
     (.ident "x") (by rfl) (by decide)⟩
